import Mathlib

/-!
Verification development for the clip repository: a Lightning-node metadata
broadcast system over Nostr.  The Go source is shallowly embedded: pure
functions become Lean functions, the mutable `MapStore` becomes explicit
state passing, machine integers (`int`, `nostr.Timestamp = int64`) become
`Int` with explicit int64 range conditions where `strconv` enforces them,
and fallible code returns `Except`/`Option`.  Cryptographic primitives
(sha256, schnorr signature check, zbase32, secp256k1 compact recovery) are
parameters gathered in a `Crypto` record, since their number-theoretic
content is external library code; everything the repository itself computes
(tag handling, serialization, identifier codec, store logic) is embedded
concretely.
-/

namespace Clip

/-! ## Go standard-library models: strconv.Itoa / strconv.Atoi,
    strings.Split / strings.Join, hex.EncodeToString -/

/-- Decimal digits of a natural number, most significant first
    (the digit emission loop inside Go's `strconv.Itoa`); structurally
    recursive on a fuel argument so that it computes by kernel reduction.
    `fuel > n` always suffices because the argument shrinks by a factor of
    ten each step. -/
def natToDecAux : Nat → Nat → List Char
  | 0, _ => []
  | fuel + 1, n =>
    if n < 10 then [Nat.digitChar n]
    else natToDecAux fuel (n / 10) ++ [Nat.digitChar (n % 10)]

def natToDec (n : Nat) : List Char := natToDecAux (n + 1) n

/-- Is the character an ASCII decimal digit? -/
def isDigitCh (c : Char) : Bool := 48 ≤ c.toNat && c.toNat ≤ 57

/-- Parse a nonempty all-digit character list as a natural number
    (the digit accumulation loop inside Go's `strconv.Atoi`). -/
def decToNat (l : List Char) : Option Nat :=
  if l.isEmpty then none
  else if l.all isDigitCh then
    some (l.foldl (fun a c => a * 10 + (c.toNat - 48)) 0)
  else none

/-- Largest value of Go's 64-bit `int`. -/
def int64Max : Int := 9223372036854775807

/-- Model of Go `strconv.Itoa` for an `int` value. -/
def itoa (n : Int) : String :=
  if n < 0 then String.mk ('-' :: natToDec (-n).toNat)
  else String.mk (natToDec n.toNat)

/-- Model of Go `strconv.Atoi`: optional sign, nonempty digit run,
    int64 range check (out-of-range input is an error). -/
def atoi (s : String) : Option Int :=
  match s.data with
  | [] => none
  | c :: rest =>
    if c = '+' then
      (decToNat rest).bind fun m =>
        if (m : Int) ≤ int64Max then some (m : Int) else none
    else if c = '-' then
      (decToNat rest).bind fun m =>
        if (m : Int) ≤ int64Max + 1 then some (-(m : Int)) else none
    else
      (decToNat (c :: rest)).bind fun m =>
        if (m : Int) ≤ int64Max then some (m : Int) else none

/-- Character-level splitter behind Go `strings.Split` with a
    one-character separator.  Always returns a nonempty list. -/
def splitCharAux (c : Char) : List Char → List (List Char)
  | [] => [[]]
  | x :: xs =>
    match splitCharAux c xs with
    | [] => [[]]
    | h :: t => if x = c then [] :: h :: t else (x :: h) :: t

/-- Model of Go `strings.Split(s, sep)` for a one-character separator. -/
def goSplit (s : String) (c : Char) : List String :=
  (splitCharAux c s.data).map String.mk

/-- Character-level joiner behind Go `strings.Join`. -/
def joinCharAux (c : Char) : List (List Char) → List Char
  | [] => []
  | [x] => x
  | x :: y :: ys => x ++ c :: joinCharAux c (y :: ys)

/-- Model of Go `strings.Join(l, sep)` for a one-character separator. -/
def goJoin (c : Char) (l : List String) : String :=
  String.mk (joinCharAux c (l.map String.data))

/-- Byte view of a string (Go `[]byte(s)`); adequate for the ASCII
    strings (hex ids, zbase32 signatures) the source feeds it. -/
def strBytes (s : String) : List Nat := s.data.map Char.toNat

/-- Model of Go `hex.EncodeToString`: two lowercase hex digits per byte,
    high nibble first. -/
def hexEncode (bytes : List Nat) : String :=
  String.mk (bytes.foldr
    (fun b acc => Nat.digitChar (b / 16 % 16) :: Nat.digitChar (b % 16) :: acc) [])

/-! ## Errors

One constructor per distinct `fmt.Errorf` site the embedded code can hit.
Wrapper constructors model Go error wrapping (`%w` / `%v`). -/

inductive Err where
  | missingOrInvalidDTag : Err
  | missingOrInvalidKTag : Err
  | invalidKindInKTag : Err
  | invalidDTagFormat : Err
  | gettingIdentifier : Err → Err
  | eventAlreadyHasDTag : Err
  | eventAlreadyHasKTag : Err
  | eventTooFarInFuture : Err
  | eventIdMismatch : Err
  | contentSizeExceeds : Err
  | invalidNetwork : Err
  | badNostrSignature : Err
  | moreThanOneSigTag : Err
  | noSigTagFound : Err
  | decodingSignature : Err
  | recoveringPublicKey : Err
  | publicKeyMismatch : Err
  | eventNotFinalized : Err
  | eventAlreadyHasSigTag : Err
  | signingWithLn : Err → Err
  | signingWithNostr : Err → Err
  | lnSignerFailed : Err
  | nostrSignerFailed : Err
  | existingAnnouncementNewer : Err
  | eventPubkeyMismatch : Err
  | existingRecordNewer : Err
  | creatingEventFromRelay : Err → Err
  | invalidEvent : Err → Err
  | invalidEventNoErr : Err
  | storingEventFailed : Err → Err
  deriving DecidableEq

/-! ## Record model (src/unnamed/part_000)

`nostr.Event` from the go-nostr transport library; `Sig` is the broadcast
(schnorr) signature field, `ID` the self-reported content hash. -/

structure NostrEvent where
  ID : String
  PubKey : String
  CreatedAt : Int
  Kind : Int
  Tags : List (List String)
  Content : String
  Sig : String
  deriving DecidableEq

/-- go-nostr `Tags.Find`: first tag with the given name that also has a
    value (at least two items). -/
def tagsFind (tags : List (List String)) (key : String) : Option (List String) :=
  tags.find? fun t =>
    match t with
    | a :: _ :: _ => a == key
    | _ => false

/-- go-nostr `Tags.FindAll`: every tag with the given name that also has a
    value. -/
def tagsFindAll (tags : List (List String)) (key : String) : List (List String) :=
  tags.filter fun t =>
    match t with
    | a :: _ :: _ => a == key
    | _ => false

/-- `t[1]` on a tag that is known to have a value. -/
def tagValue (t : List String) : String := (t.get? 1).getD ""

/-- go-nostr JSON string escaping (used by `Event.Serialize`): quote,
    backslash and control characters escaped, everything else verbatim. -/
def escChar (c : Char) : List Char :=
  if c = '"' then ['\\', '"']
  else if c = '\\' then ['\\', '\\']
  else if 0x20 ≤ c.toNat then [c]
  else if c.toNat = 0x08 then ['\\', 'b']
  else if c.toNat = 0x09 then ['\\', 't']
  else if c.toNat = 0x0a then ['\\', 'n']
  else if c.toNat = 0x0c then ['\\', 'f']
  else if c.toNat = 0x0d then ['\\', 'r']
  else ['\\', 'u', '0', '0', Nat.digitChar (c.toNat / 16), Nat.digitChar (c.toNat % 16)]

def escapeStringJson (s : String) : String :=
  String.mk ('"' :: s.data.foldr (fun c acc => escChar c ++ acc) ['"'])

def tagsJson (tags : List (List String)) : String :=
  "[" ++ String.intercalate ","
    (tags.map fun t => "[" ++ String.intercalate "," (t.map escapeStringJson) ++ "]") ++ "]"

/-- go-nostr `Event.Serialize`: the canonical form
    `[0,<pubkey>,<created_at>,<kind>,<tags>,<content>]` that is hashed to
    produce the event id.  The pubkey is inserted verbatim, numbers in
    decimal, tags and content JSON-escaped. -/
def serializeEvent (ne : NostrEvent) : String :=
  "[0," ++ "\"" ++ ne.PubKey ++ "\"" ++ "," ++ itoa ne.CreatedAt ++ "," ++
    itoa ne.Kind ++ "," ++ tagsJson ne.Tags ++ "," ++ escapeStringJson ne.Content ++ "]"

/-- External cryptographic primitives, passed as parameters: `sha` is
    hex-encoded sha256 (go-nostr `GetID` composes it with `Serialize`),
    `checkSig` is go-nostr `Event.CheckSignature` (schnorr over the event,
    returning ok plus an optional decode error), `zbase32Decode`,
    `doubleHashB` (`chainhash.DoubleHashB`) and `recoverCompact`
    (`ecdsa.RecoverCompact`, returning compressed-pubkey bytes) back the
    Lightning signature check. -/
structure Crypto where
  sha : String → String
  checkSig : NostrEvent → Bool × Option Err
  zbase32Decode : String → Option (List Nat)
  doubleHashB : List Nat → List Nat
  recoverCompact : List Nat → List Nat → Option (List Nat)

/-- go-nostr `Event.GetID`: hex sha256 of the serialized event. -/
def GetID (c : Crypto) (ne : NostrEvent) : String := c.sha (serializeEvent ne)

/-- `signedMsgPrefix`, the ASCII bytes lnd prepends before double-hashing. -/
def signedMsgHeader : List Nat := strBytes "Lightning Signed Message:"

/-! ## Constants (part_000 lines 17-29) -/

def KindLightningInformation : Int := 38171
def KindNodeAnnouncement : Int := 0
def KindNodeInfo : Int := 1
def MaxContentSize : Nat := 1 * 1024 * 1024
def EventGracePeriodSeconds : Int := 600

/-- `IsValidNetwork` (lightning.go). -/
def IsValidNetwork (network : String) : Bool :=
  network == "mainnet" || network == "testnet" || network == "testnet4" ||
    network == "signet" || network == "simnet" || network == "regtest"

/-! ## Identifier (part_000 lines 216-267) -/

structure Identifier where
  TagD : String
  Network : String
  PubKey : String
  Kind : Int
  Opts : List String
  deriving DecidableEq

/-- The identifier computation inside `GetIdentifier` (the non-cached
    path): requires a "d" and a "k" tag with values, an integer "k" value,
    and for non-announcement kinds at least 3 colon-separated "d" parts. -/
def computeIdentifier (ne : NostrEvent) : Except Err Identifier :=
  match tagsFind ne.Tags "d" with
  | none => .error Err.missingOrInvalidDTag
  | some tagD =>
    if tagD.length < 2 then .error Err.missingOrInvalidDTag
    else
      match tagsFind ne.Tags "k" with
      | none => .error Err.missingOrInvalidKTag
      | some tagK =>
        if tagK.length < 2 then .error Err.missingOrInvalidKTag
        else
          match atoi (tagValue tagK) with
          | none => .error Err.invalidKindInKTag
          | some kind =>
            if kind = KindNodeAnnouncement then
              .ok { TagD := tagValue tagD, Network := "", PubKey := tagValue tagD,
                    Kind := kind, Opts := [] }
            else
              if (goSplit (tagValue tagD) ':').length < 3 then
                .error Err.invalidDTagFormat
              else
                .ok { TagD := tagValue tagD,
                      Network := (goSplit (tagValue tagD) ':').getD 2 "",
                      PubKey := (goSplit (tagValue tagD) ':').getD 1 "",
                      Kind := kind, Opts := (goSplit (tagValue tagD) ':').drop 3 }

/-! ## Event (part_000 lines 36-214) -/

structure Event where
  NostrEvent : NostrEvent
  kind : Int
  finalized : Bool
  id : Option Identifier
  deriving DecidableEq

/-- `Event.GetIdentifier`: returns the cached identifier when present,
    otherwise computes (and in Go caches) it. -/
def Event.GetIdentifier (e : Event) : Except Err Identifier :=
  match e.id with
  | some idx => .ok idx
  | none => computeIdentifier e.NostrEvent

/-- `NewEventFromNostrRelay`: wraps an inbound record, eagerly computing
    the identifier and marking the event finalized. -/
def NewEventFromNostrRelay (ne : NostrEvent) : Except Err Event :=
  match computeIdentifier ne with
  | .error err => .error (Err.gettingIdentifier err)
  | .ok idx => .ok { NostrEvent := ne, kind := idx.Kind, finalized := true, id := some idx }

/-- `copyWithoutSig`: drop every tag whose name is "sig" (any length ≥ 1)
    and clear id/sig for re-serialization. -/
def copyWithoutSig (e : Event) : NostrEvent :=
  { ID := "", PubKey := e.NostrEvent.PubKey, CreatedAt := e.NostrEvent.CreatedAt,
    Kind := e.NostrEvent.Kind,
    Tags := e.NostrEvent.Tags.filter fun t =>
      !(match t with
        | a :: _ => a == "sig"
        | [] => false),
    Content := e.NostrEvent.Content, Sig := "" }

/-- `Event.Hash`: the Lightning-signable message, the id of the event with
    all "sig" tags removed. -/
def Event.Hash (c : Crypto) (e : Event) : String := GetID c (copyWithoutSig e)

/-- `Event.Finalize`: reject pre-existing "d"/"k" tags, synthesize the "d"
    tag (bare pubkey for announcements, colon-joined otherwise), append
    "d" and "k" tags, set the wire kind, and mark finalized. -/
def Event.Finalize (e : Event) (network : String) (pubkey : String) (kind : Int)
    (opts : List String) : Except Err Event :=
  if (tagsFind e.NostrEvent.Tags "d").isSome then .error Err.eventAlreadyHasDTag
  else if (tagsFind e.NostrEvent.Tags "k").isSome then .error Err.eventAlreadyHasKTag
  else
    let kindStr := itoa kind
    let tagD :=
      if kind = KindNodeAnnouncement then pubkey
      else goJoin ':' (kindStr :: pubkey :: network :: opts)
    .ok { e with
      kind := kind,
      finalized := true,
      NostrEvent := { e.NostrEvent with
        Kind := KindLightningInformation,
        Tags := e.NostrEvent.Tags ++ [["d", tagD], ["k", kindStr]] } }

/-- `RequiresLnSignature`: static per-kind policy, true only for node
    announcements (the trust-anchor kind). -/
def Event.RequiresLnSignature (e : Event) : Bool := e.kind == KindNodeAnnouncement

/-- `checkLightningSig`: exactly one "sig" tag, zbase32-decode it,
    double-hash the prefixed signable hash, recover the compact pubkey and
    compare its hex encoding with the identifier's Lightning pubkey. -/
def checkLightningSig (c : Crypto) (e : Event) (pubKeyID : String) : Bool × Option Err :=
  let sigs := tagsFindAll e.NostrEvent.Tags "sig"
  if sigs.length > 1 then (false, some Err.moreThanOneSigTag)
  else
    match sigs with
    | [] => (false, some Err.noSigTagFound)
    | s0 :: _ =>
      match c.zbase32Decode (tagValue s0) with
      | none => (false, some Err.decodingSignature)
      | some sb =>
        let msg := strBytes (Event.Hash c e)
        let b := c.doubleHashB (signedMsgHeader ++ msg)
        match c.recoverCompact sb b with
        | none => (false, some Err.recoveringPublicKey)
        | some pk =>
          if hexEncode pk ≠ pubKeyID then (false, some Err.publicKeyMismatch)
          else (true, none)

/-- `Event.Verify` with the ambient clock (`nostr.Now()`) passed as `now`:
    the eight ordered checks of the verification pipeline. -/
def Event.Verify (c : Crypto) (now : Int) (e : Event) : Bool × Option Err :=
  if e.NostrEvent.CreatedAt > now + EventGracePeriodSeconds then
    (false, some Err.eventTooFarInFuture)
  else if e.NostrEvent.ID ≠ GetID c e.NostrEvent then
    (false, some Err.eventIdMismatch)
  else if e.NostrEvent.Content.utf8ByteSize > MaxContentSize then
    (false, some Err.contentSizeExceeds)
  else
    match Event.GetIdentifier e with
    | .error err => (false, some err)
    | .ok idx =>
      if idx.Kind ≠ KindNodeAnnouncement ∧ IsValidNetwork idx.Network = false then
        (false, some Err.invalidNetwork)
      else
        match tagsFind e.NostrEvent.Tags "k" with
        | none => (false, some Err.missingOrInvalidKTag)
        | some k =>
          if k.length < 2 ∨ tagValue k ≠ itoa idx.Kind then
            (false, some Err.missingOrInvalidKTag)
          else
            if (c.checkSig e.NostrEvent).2.isSome ∨ (c.checkSig e.NostrEvent).1 = false then
              (false, (c.checkSig e.NostrEvent).2)
            else
              if Event.RequiresLnSignature e then
                if (checkLightningSig c e idx.PubKey).2.isSome ∨
                    (checkLightningSig c e idx.PubKey).1 = false then
                  (false, (checkLightningSig c e idx.PubKey).2)
                else (true, none)
              else (true, none)

/-! ### The eight Verify checks as standalone predicates

`vPass<i>` states that check `i` of the verification pipeline passes;
checks 5, 6 and 8 are relative to the parsed identifier of check 4. -/

/-- Check 1: createdAt within the 600-second future grace window. -/
def vPassTime (now : Int) (e : Event) : Prop :=
  e.NostrEvent.CreatedAt ≤ now + EventGracePeriodSeconds

/-- Check 2: the self-reported id equals the recomputed one. -/
def vPassID (c : Crypto) (e : Event) : Prop :=
  e.NostrEvent.ID = GetID c e.NostrEvent

/-- Check 3: content within the 1 MiB limit. -/
def vPassSize (e : Event) : Prop :=
  e.NostrEvent.Content.utf8ByteSize ≤ MaxContentSize

/-- Check 5: recognized network name, demanded only for non-anchor kinds. -/
def vPassNetwork (idx : Identifier) : Prop :=
  idx.Kind ≠ KindNodeAnnouncement → IsValidNetwork idx.Network = true

/-- Check 6: the "k" tag exists and its value is the decimal kind. -/
def vPassKTag (e : Event) (idx : Identifier) : Prop :=
  ∃ k, tagsFind e.NostrEvent.Tags "k" = some k ∧
    ¬ (k.length < 2 ∨ tagValue k ≠ itoa idx.Kind)

/-- Check 7: the broadcast-identity signature verifies. -/
def vPassSig (c : Crypto) (e : Event) : Prop :=
  c.checkSig e.NostrEvent = (true, none)

/-- Check 8: the Lightning signature verifies, demanded only for kinds
    that require one. -/
def vPassLn (c : Crypto) (e : Event) (idx : Identifier) : Prop :=
  Event.RequiresLnSignature e = true → checkLightningSig c e idx.PubKey = (true, none)

/-! ## Dual signer (part_000 lines 301-353)

The two signing collaborators are parameters: `lnSign` is
`LnSigner.SignMessage` (Lightning identity key, returns the zbase32
signature string) and `nostrSign` is `nostr.Signer.SignEvent` (broadcast
identity key, fills in the event's id and schnorr signature). -/

/-- `CombinedSigner.signWithLn`: refuse a pre-existing "sig" tag, sign the
    signable hash with the Lightning key and append the "sig" tag. -/
def signWithLn (c : Crypto) (lnSign : List Nat → Except Err String) (ev : Event) :
    Except Err Event :=
  if (tagsFind ev.NostrEvent.Tags "sig").isSome then .error Err.eventAlreadyHasSigTag
  else
    match lnSign (strBytes (Event.Hash c ev)) with
    | .error e => .error e
    | .ok sigStr =>
      .ok { ev with NostrEvent := { ev.NostrEvent with
        Tags := ev.NostrEvent.Tags ++ [["sig", sigStr]] } }

/-- `CombinedSigner.SignEvent`: require a finalized event, apply the
    Lightning signature first when the kind demands one, then the
    broadcast-identity signature. -/
def SignEvent (c : Crypto) (lnSign : List Nat → Except Err String)
    (nostrSign : NostrEvent → Except Err NostrEvent) (ev : Event) : Except Err Event :=
  if ev.finalized = false then .error Err.eventNotFinalized
  else
    match (if Event.RequiresLnSignature ev then signWithLn c lnSign ev else .ok ev) with
    | .error e => .error (Err.signingWithLn e)
    | .ok ev2 =>
      match nostrSign ev2.NostrEvent with
      | .error e => .error (Err.signingWithNostr e)
      | .ok ne => .ok { ev2 with NostrEvent := ne }

/-! ## Trust store (src/unnamed/part_001)

Go maps become association lists; `mapFind` is map lookup, `mapSet` is map
assignment (the operations the source performs).  Locking is dropped: the
embedding is the sequential semantics the locks protect. -/

def mapFind {α : Type} (l : List (String × α)) (k : String) : Option α :=
  match l.find? (fun kv => kv.1 == k) with
  | some kv => some kv.2
  | none => none

def mapSet {α : Type} (l : List (String × α)) (k : String) (v : α) :
    List (String × α) :=
  if (l.find? (fun kv => kv.1 == k)).isSome then
    l.map fun kv => if kv.1 == k then (k, v) else kv
  else l ++ [(k, v)]

structure AnnouncementState where
  createdAt : Int
  pub : String
  deriving DecidableEq

structure NodeState where
  lastAnnouncement : AnnouncementState
  events : List (String × Event)
  deriving DecidableEq

/-- `newNodeState`: zero-valued announcement, empty slot map. -/
def newNodeState : NodeState :=
  { lastAnnouncement := { createdAt := 0, pub := "" }, events := [] }

structure MapStore where
  records : List (String × NodeState)
  deriving DecidableEq

def NewMapStore : MapStore := { records := [] }

/-- `registerAnnouncement`: reject non-strictly-newer announcements, purge
    all slots when the broadcast pubkey changed, then record the event in
    its slot and update `lastAnnouncement`. -/
def registerAnnouncement (ns : NodeState) (ev : Event) (idx : Identifier) :
    Except Err NodeState :=
  if ns.lastAnnouncement.createdAt ≥ ev.NostrEvent.CreatedAt then
    .error Err.existingAnnouncementNewer
  else
    let events0 := if ns.lastAnnouncement.pub ≠ ev.NostrEvent.PubKey then [] else ns.events
    .ok { lastAnnouncement := { createdAt := ev.NostrEvent.CreatedAt,
                                pub := ev.NostrEvent.PubKey },
          events := mapSet events0 idx.TagD ev }

/-- `storeRegularEvent`: only the currently announced broadcast pubkey may
    write, and only strictly newer records replace an occupied slot. -/
def storeRegularEvent (ns : NodeState) (ev : Event) (idx : Identifier) :
    Except Err NodeState :=
  if ns.lastAnnouncement.pub ≠ ev.NostrEvent.PubKey then .error Err.eventPubkeyMismatch
  else
    match mapFind ns.events idx.TagD with
    | some lastRecord =>
      if lastRecord.NostrEvent.CreatedAt ≥ ev.NostrEvent.CreatedAt then
        .error Err.existingRecordNewer
      else .ok { ns with events := mapSet ns.events idx.TagD ev }
    | none => .ok { ns with events := mapSet ns.events idx.TagD ev }

/-- The store-mutating effect of `getNodeState`: create the node entry
    lazily if absent (entries are never removed). -/
def getNodeStateStore (s : MapStore) (pubkey : String) : MapStore :=
  if (mapFind s.records pubkey).isSome then s
  else { records := s.records ++ [(pubkey, newNodeState)] }

/-- `MapStore.StoreEvent`: resolve the identifier, locate or create the
    node state, then dispatch on the logical kind.  Returns the updated
    store and the error, mirroring the Go mutation plus return value. -/
def StoreEvent (s : MapStore) (ev : Event) : MapStore × Option Err :=
  match Event.GetIdentifier ev with
  | .error e => (s, some e)
  | .ok idx =>
    let s1 := getNodeStateStore s idx.PubKey
    let ns := (mapFind s1.records idx.PubKey).getD newNodeState
    if ev.kind = KindNodeAnnouncement then
      match registerAnnouncement ns ev idx with
      | .error e => (s1, some e)
      | .ok ns2 => ({ records := mapSet s1.records idx.PubKey ns2 }, none)
    else
      match storeRegularEvent ns ev idx with
      | .error e => (s1, some e)
      | .ok ns2 => ({ records := mapSet s1.records idx.PubKey ns2 }, none)

/-- The node state the store holds for a pubkey, or the zero-valued state
    if the node is unknown (what a Go map read returns). -/
def nodeOf (s : MapStore) (p : String) : NodeState :=
  (mapFind s.records p).getD newNodeState

/-- `newInFilter`: empty set matches everything. -/
def inFilter (set : List String) (item : String) : Bool :=
  if set.isEmpty then true else set.contains item

/-- `MapStore.GetEvents`: all stored events of the requested logical kind
    from the nodes passing the pubkey filter. -/
def MapStore.GetEvents (s : MapStore) (kind : Int) (pubKeys : List String) : List Event :=
  ((s.records.filter fun kv => inFilter pubKeys kv.1).map fun kv =>
    (kv.2.events.map Prod.snd).filter fun ev => ev.kind == kind).flatten

/-! ## Sync pipeline (src/unnamed/part_002)

The relay pool is a parameter: `fetch` maps the "k"-tag filter value to the
records the pool streams back.  Cancellation (the only fatal-error source
in `syncStoreWithPool`) is outside the sequential embedding, so the fatal
result is always absent here. -/

/-- The per-record body of `syncStoreWithPool.Range`: parse, verify, store;
    each failure appends one warning and processing continues. -/
def processRecord (c : Crypto) (now : Int) (st : MapStore × List Err) (ne : NostrEvent) :
    MapStore × List Err :=
  match NewEventFromNostrRelay ne with
  | .error e => (st.1, st.2 ++ [Err.creatingEventFromRelay e])
  | .ok lev =>
    if (Event.Verify c now lev).1 = false ∨ (Event.Verify c now lev).2.isSome then
      (st.1, st.2 ++ [match (Event.Verify c now lev).2 with
        | some e => Err.invalidEvent e
        | none => Err.invalidEventNoErr])
    else
      match (StoreEvent st.1 lev).2 with
      | some e => ((StoreEvent st.1 lev).1, st.2 ++ [Err.storingEventFailed e])
      | none => ((StoreEvent st.1 lev).1, st.2)

/-- `syncStoreWithPool` on the already-fetched record stream. -/
def syncStoreWithPool (c : Crypto) (now : Int) (s : MapStore)
    (fetched : List NostrEvent) : MapStore × List Err :=
  fetched.foldl (processRecord c now) (s, [])

/-- `Client.GetEvents`: the trust-anchor pass always runs first; a second
    pass runs unless the requested kind is the announcement kind itself;
    warnings from both passes accumulate; the result is the store query. -/
def ClientGetEvents (c : Crypto) (now : Int) (store : MapStore) (kind : Int)
    (pubkeys : List String) (fetch : Int → List NostrEvent) :
    List Event × MapStore × List Err :=
  let p1 := syncStoreWithPool c now store (fetch KindNodeAnnouncement)
  if kind ≠ KindNodeAnnouncement then
    let p2 := syncStoreWithPool c now p1.1 (fetch kind)
    (MapStore.GetEvents p2.1 kind pubkeys, p2.1, p1.2 ++ p2.2)
  else (MapStore.GetEvents p1.1 kind pubkeys, p1.1, p1.2)

/-- The event `Client.Publish` constructs before finalizing: fresh record
    with the client's broadcast pubkey, the current time and the serialized
    payload; all other fields zero-valued. -/
def freshPublishEvent (pub : String) (now : Int) (content : String) : Event :=
  { NostrEvent := { ID := "", PubKey := pub, CreatedAt := now, Kind := 0, Tags := [],
                    Content := content, Sig := "" },
    kind := 0, finalized := false, id := none }

/-- The Finalize → SignEvent → Verify sequence `Client.Publish` performs
    before handing the event to the transport. -/
def publishPipeline (c : Crypto) (now : Int) (lnSign : List Nat → Except Err String)
    (nostrSign : NostrEvent → Except Err NostrEvent) (pub : String) (content : String)
    (network : String) (lnPubKey : String) (kind : Int) (opts : List String) :
    Except Err (Bool × Option Err) :=
  match Event.Finalize (freshPublishEvent pub now content) network lnPubKey kind opts with
  | .error e => .error e
  | .ok ev1 =>
    match SignEvent c lnSign nostrSign ev1 with
    | .error e => .error e
    | .ok ev2 => .ok (Event.Verify c now ev2)

/-- Finalize-then-reparse composition (the identifier round trip). -/
def roundTripId (network : String) (pubkey : String) (kind : Int) (opts : List String) :
    Except Err Identifier :=
  match Event.Finalize (freshPublishEvent "npub" 0 "") network pubkey kind opts with
  | .error e => .error e
  | .ok e1 => Event.GetIdentifier e1

/-! ## Concrete fixtures used by witnesses and counterexamples -/

/-- Trivial crypto instantiation: constant hash, always-valid broadcast
    signature, identity decode/recover returning the signature bytes. -/
def cTest : Crypto :=
  { sha := fun _ => "h",
    checkSig := fun ne => if ne.PubKey == "bad" then (false, none) else (true, none),
    zbase32Decode := fun s => some (strBytes s),
    doubleHashB := fun l => l,
    recoverCompact := fun sb _ => some sb }

/-- A trust-anchor (announcement) event as parsed from a relay filter,
    before `NewEventFromNostrRelay`. -/
def anchorRecord (npub : String) (nodePub : String) (sigVal : String) (t : Int) :
    NostrEvent :=
  { ID := "h", PubKey := npub, CreatedAt := t, Kind := KindLightningInformation,
    Tags := [["d", nodePub], ["k", "0"], ["sig", sigVal]], Content := "", Sig := "" }

/-- The five-record partial-success batch: record 3 carries an invalid
    broadcast-identity signature (pubkey "bad" under `cTest`). -/
def rec5 : List NostrEvent :=
  [anchorRecord "P" "41" "A" 100, anchorRecord "P" "42" "B" 100,
   anchorRecord "bad" "43" "C" 100, anchorRecord "P" "44" "D" 100,
   anchorRecord "P" "45" "E" 100]

/-- A bare announcement event handed directly to the store. -/
def anchorEv (npub : String) (nodePub : String) (t : Int) : Event :=
  { NostrEvent := { ID := "", PubKey := npub, CreatedAt := t,
                    Kind := KindLightningInformation,
                    Tags := [["d", nodePub], ["k", "0"]],
                    Content := "", Sig := "" },
    kind := 0, finalized := true, id := none }

/-- A bare node-info (non-anchor) event handed directly to the store. -/
def infoEv (npub : String) (nodePub : String) (t : Int) : Event :=
  { NostrEvent := { ID := "", PubKey := npub, CreatedAt := t,
                    Kind := KindLightningInformation,
                    Tags := [["d", "1:" ++ nodePub ++ ":mainnet"], ["k", "1"]],
                    Content := "", Sig := "" },
    kind := 1, finalized := true, id := none }

instance exceptDecEq {ε α : Type} [DecidableEq ε] [DecidableEq α] :
    DecidableEq (Except ε α) := fun a b =>
  match a, b with
  | .ok x, .ok y =>
    if h : x = y then .isTrue (by rw [h])
    else .isFalse (fun hc => h (Except.ok.inj hc))
  | .error x, .error y =>
    if h : x = y then .isTrue (by rw [h])
    else .isFalse (fun hc => h (Except.error.inj hc))
  | .ok _, .error _ => .isFalse (by intro hc; exact Except.noConfusion hc)
  | .error _, .ok _ => .isFalse (by intro hc; exact Except.noConfusion hc)

/-- Trivial publish collaborators for the pipeline witness: a crypto whose
    broadcast-signature check always passes and whose compact recovery
    returns the single byte 0 (hex "00"), matched by the Lightning pubkey
    below. -/
def cPub : Crypto :=
  { sha := fun _ => "x",
    checkSig := fun _ => (true, none),
    zbase32Decode := fun _ => some [],
    doubleHashB := fun l => l,
    recoverCompact := fun _ _ => some [0] }

def lnSignPub : List Nat → Except Err String := fun _ => .ok "s"

def nostrSignPub : NostrEvent → Except Err NostrEvent :=
  fun ne => .ok { ne with ID := "x" }

/-! ### Round-trip facts about the standard-library models -/

theorem digitChar_toNat {d : Nat} (h : d < 10) : (Nat.digitChar d).toNat = 48 + d := by
  interval_cases d <;> decide

theorem digitChar_isDigit {d : Nat} (h : d < 10) : isDigitCh (Nat.digitChar d) = true := by
  interval_cases d <;> decide

theorem natToDecAux_ne_nil (fuel n : Nat) (h : n < fuel) : natToDecAux fuel n ≠ [] := by
  cases fuel with
  | zero => omega
  | succ f =>
    unfold natToDecAux
    by_cases h10 : n < 10
    · rw [if_pos h10]
      simp
    · rw [if_neg h10]
      simp

theorem natToDec_ne_nil (n : Nat) : natToDec n ≠ [] :=
  natToDecAux_ne_nil (n + 1) n (by omega)

theorem natToDecAux_head_digit (fuel : Nat) :
    ∀ n, n < fuel → ∀ c ∈ (natToDecAux fuel n), isDigitCh c = true := by
  induction fuel with
  | zero => intro n h; omega
  | succ f ih =>
    intro n h c hc
    unfold natToDecAux at hc
    by_cases h10 : n < 10
    · rw [if_pos h10] at hc
      rw [List.mem_singleton] at hc
      rw [hc]
      exact digitChar_isDigit h10
    · rw [if_neg h10] at hc
      rcases List.mem_append.1 hc with h1 | h2
      · exact ih (n / 10) (by omega) c h1
      · rw [List.mem_singleton] at h2
        rw [h2]
        exact digitChar_isDigit (Nat.mod_lt n (by omega))

theorem natToDec_head_digit (n : Nat) :
    ∀ c ∈ (natToDec n), isDigitCh c = true :=
  natToDecAux_head_digit (n + 1) n (by omega)

theorem natToDec_all_digits (n : Nat) : (natToDec n).all isDigitCh = true := by
  rw [List.all_eq_true]
  exact natToDec_head_digit n

theorem natToDecAux_foldl (fuel : Nat) :
    ∀ n, n < fuel →
      (natToDecAux fuel n).foldl (fun a c => a * 10 + (c.toNat - 48)) 0 = n := by
  induction fuel with
  | zero => intro n h; omega
  | succ f ih =>
    intro n h
    unfold natToDecAux
    by_cases h10 : n < 10
    · rw [if_pos h10]
      simp [digitChar_toNat h10]
    · rw [if_neg h10]
      rw [List.foldl_append, ih (n / 10) (by omega)]
      simp only [List.foldl_cons, List.foldl_nil]
      rw [digitChar_toNat (Nat.mod_lt n (by omega))]
      omega

theorem natToDec_foldl (n : Nat) :
    (natToDec n).foldl (fun a c => a * 10 + (c.toNat - 48)) 0 = n :=
  natToDecAux_foldl (n + 1) n (by omega)

theorem decToNat_natToDec (n : Nat) : decToNat (natToDec n) = some n := by
  unfold decToNat
  rw [if_neg (by
    cases hh : natToDec n with
    | nil => exact absurd hh (natToDec_ne_nil n)
    | cons a l => simp [hh]), if_pos (natToDec_all_digits n), natToDec_foldl]

/-- `strconv.Atoi` inverts `strconv.Itoa` on the int64 range. -/
theorem atoi_itoa {n : Int} (h1 : -(int64Max + 1) ≤ n) (h2 : n ≤ int64Max) :
    atoi (itoa n) = some n := by
  unfold itoa
  by_cases hn : n < 0
  · rw [if_pos hn]
    show (decToNat (natToDec (-n).toNat)).bind
      (fun m => if (m : Int) ≤ int64Max + 1 then some (-(m : Int)) else none) = some n
    rw [decToNat_natToDec]
    show (if (((-n).toNat : Nat) : Int) ≤ int64Max + 1
        then some (-((((-n).toNat : Nat)) : Int)) else none) = some n
    rw [if_pos (by omega)]
    congr 1
    omega
  · rw [if_neg hn]
    unfold atoi
    have hne := natToDec_ne_nil n.toNat
    obtain ⟨c, rest, hcr⟩ : ∃ c rest, natToDec n.toNat = c :: rest := by
      cases hh : natToDec n.toNat with
      | nil => exact absurd hh hne
      | cons c rest => exact ⟨c, rest, rfl⟩
    have hdig : isDigitCh c = true :=
      natToDec_head_digit n.toNat c (hcr ▸ List.mem_cons_self c rest)
    have hcplus : c ≠ '+' := by
      intro hEq
      rw [hEq] at hdig
      exact absurd hdig (by decide)
    have hcminus : c ≠ '-' := by
      intro hEq
      rw [hEq] at hdig
      exact absurd hdig (by decide)
    simp only [hcr]
    rw [if_neg hcplus, if_neg hcminus, ← hcr, decToNat_natToDec]
    show (if (((n.toNat : Nat)) : Int) ≤ int64Max
        then some ((((n.toNat : Nat)) : Int)) else none) = some n
    rw [if_pos (by omega)]
    congr 1
    omega

theorem splitCharAux_ne_nil (c : Char) (l : List Char) : splitCharAux c l ≠ [] := by
  cases l with
  | nil => exact fun hh => List.noConfusion hh
  | cons x xs =>
    unfold splitCharAux
    cases splitCharAux c xs with
    | nil => exact fun hh => List.noConfusion hh
    | cons h t =>
      show (if x = c then [] :: h :: t else (x :: h) :: t) ≠ []
      by_cases hx : x = c
      · rw [if_pos hx]
        exact fun hh => List.noConfusion hh
      · rw [if_neg hx]
        exact fun hh => List.noConfusion hh

theorem splitCharAux_append {c : Char} {x r : List Char} {h : List Char}
    {t : List (List Char)} (hx : c ∉ x) (hr : splitCharAux c r = h :: t) :
    splitCharAux c (x ++ r) = (x ++ h) :: t := by
  induction x with
  | nil => simpa using hr
  | cons a x' ih =>
    have ha : a ≠ c := by
      intro hEq
      exact hx (hEq ▸ List.mem_cons_self a x')
    have hx' : c ∉ x' := fun hm => hx (List.mem_cons_of_mem a hm)
    have := ih hx'
    simp only [List.cons_append]
    unfold splitCharAux
    rw [this]
    simp [ha]

theorem splitCharAux_joinCharAux (c : Char) (L : List (List Char)) (hL : L ≠ [])
    (hc : ∀ l ∈ L, c ∉ l) : splitCharAux c (joinCharAux c L) = L := by
  induction L with
  | nil => exact absurd rfl hL
  | cons x ys ih =>
    cases ys with
    | nil =>
      have hx : c ∉ x := hc x (List.mem_cons_self x [])
      have h0 : splitCharAux c ([] : List Char) = [] :: [] := rfl
      have := splitCharAux_append (r := []) (h := []) (t := []) hx h0
      simpa [joinCharAux] using this
    | cons y ys' =>
      have hx : c ∉ x := hc x (List.mem_cons_self x _)
      have hrest : ∀ l ∈ y :: ys', c ∉ l := fun l hm => hc l (List.mem_cons_of_mem x hm)
      have hih : splitCharAux c (joinCharAux c (y :: ys')) = y :: ys' :=
        ih (by simp) hrest
      show splitCharAux c (x ++ c :: joinCharAux c (y :: ys')) = x :: y :: ys'
      have hcons : splitCharAux c (c :: joinCharAux c (y :: ys')) =
          [] :: y :: ys' := by
        unfold splitCharAux
        rw [hih]
        simp
      have := splitCharAux_append (h := []) (t := y :: ys') hx hcons
      simpa using this

/-- `strings.Split` inverts `strings.Join` when no part contains the
    separator. -/
theorem goSplit_goJoin (c : Char) (l : List String) (hl : l ≠ [])
    (hc : ∀ s ∈ l, c ∉ s.data) : goSplit (goJoin c l) c = l := by
  unfold goSplit goJoin
  simp only
  rw [splitCharAux_joinCharAux c (l.map String.data)
    (by simpa using hl)
    (by
      intro d hd
      rw [List.mem_map] at hd
      obtain ⟨s, hs, rfl⟩ := hd
      exact hc s hs)]
  rw [List.map_map]
  have : (String.mk ∘ String.data) = id := by
    funext s
    rfl
  rw [this, List.map_id]

theorem itoa_no_colon (n : Int) : ':' ∉ (itoa n).data := by
  intro hmem
  unfold itoa at hmem
  have hdig : ∀ c ∈ (natToDec (n.toNat)), isDigitCh c = true := natToDec_head_digit _
  have hdig2 : ∀ c ∈ (natToDec ((-n).toNat)), isDigitCh c = true := natToDec_head_digit _
  by_cases hn : n < 0
  · rw [if_pos hn] at hmem
    simp only [String.data] at hmem
    rcases List.mem_cons.1 hmem with hEq | hmem2
    · exact absurd hEq (by decide)
    · have := hdig2 ':' hmem2
      exact absurd this (by decide)
  · rw [if_neg hn] at hmem
    simp only [String.data] at hmem
    have := hdig ':' hmem
    exact absurd this (by decide)

/-! ### Association-list map facts -/

theorem mapFind_nil {α : Type} (p : String) : mapFind ([] : List (String × α)) p = none := rfl

theorem mapFind_cons {α : Type} (kv : String × α) (l : List (String × α)) (p : String) :
    mapFind (kv :: l) p = if kv.1 = p then some kv.2 else mapFind l p := by
  unfold mapFind
  by_cases h : kv.1 = p
  · rw [List.find?_cons_of_pos _ (by simpa using h), if_pos h]
  · rw [List.find?_cons_of_neg _ (by simpa using h), if_neg h]

theorem mapFind_append {α : Type} (l1 l2 : List (String × α)) (p : String) :
    mapFind (l1 ++ l2) p = ((mapFind l1 p).or (mapFind l2 p)) := by
  unfold mapFind
  rw [List.find?_append]
  cases l1.find? (fun kv => kv.1 == p) <;> cases l2.find? (fun kv => kv.1 == p) <;> rfl

theorem mapFind_mapSet_self {α : Type} (l : List (String × α)) (p : String) (v : α) :
    mapFind (mapSet l p v) p = some v := by
  unfold mapSet
  by_cases hex : (l.find? (fun kv => kv.1 == p)).isSome
  · rw [if_pos hex]
    induction l with
    | nil => simp at hex
    | cons kv t ih =>
      rw [List.map_cons]
      by_cases hk : (kv.1 == p) = true
      · rw [if_pos hk, mapFind_cons]
        simp
      · rw [if_neg hk, mapFind_cons, if_neg (by simpa using hk)]
        apply ih
        rw [List.find?_cons_of_neg _ (by simpa using hk)] at hex
        exact hex
  · rw [if_neg hex, mapFind_append]
    have hnone : mapFind l p = none := by
      unfold mapFind
      cases hf : l.find? (fun kv => kv.1 == p) with
      | none => rfl
      | some kv => rw [hf] at hex; simp at hex
    rw [hnone]
    rw [Option.none_or]
    rw [mapFind_cons]
    simp

theorem mapFind_mapSet_other {α : Type} (l : List (String × α)) (p q : String) (v : α)
    (h : q ≠ p) : mapFind (mapSet l p v) q = mapFind l q := by
  unfold mapSet
  by_cases hex : (l.find? (fun kv => kv.1 == p)).isSome
  · rw [if_pos hex]
    clear hex
    induction l with
    | nil => rfl
    | cons kv t ih =>
      rw [List.map_cons]
      by_cases hk : (kv.1 == p) = true
      · rw [if_pos hk, mapFind_cons, mapFind_cons]
        have hkp : kv.1 = p := by simpa using hk
        rw [if_neg (fun hc => h hc.symm), if_neg (by rw [hkp]; exact fun hc => h hc.symm)]
        exact ih
      · rw [if_neg hk, mapFind_cons, mapFind_cons]
        by_cases hq : kv.1 = q
        · rw [if_pos hq, if_pos hq]
        · rw [if_neg hq, if_neg hq]
          exact ih
  · rw [if_neg hex, mapFind_append, mapFind_cons]
    rw [if_neg (fun hc => h hc.symm)]
    rw [mapFind_nil]
    cases mapFind l q <;> rfl

theorem nodeOf_getNodeState_self (s : MapStore) (p : String) :
    mapFind (getNodeStateStore s p).records p = some (nodeOf s p) := by
  unfold getNodeStateStore nodeOf
  by_cases hex : (mapFind s.records p).isSome
  · rw [if_pos hex]
    cases hf : mapFind s.records p with
    | none => rw [hf] at hex; simp at hex
    | some ns => rfl
  · rw [if_neg hex]
    have hnone : mapFind s.records p = none := by
      cases hf : mapFind s.records p with
      | none => rfl
      | some ns => rw [hf] at hex; simp at hex
    show mapFind (s.records ++ [(p, newNodeState)]) p = _
    rw [mapFind_append, hnone, Option.none_or, mapFind_cons, if_pos rfl]
    rfl

theorem mapFind_getNodeState_other (s : MapStore) (p q : String) (h : q ≠ p) :
    mapFind (getNodeStateStore s p).records q = mapFind s.records q := by
  unfold getNodeStateStore
  by_cases hex : (mapFind s.records p).isSome
  · rw [if_pos hex]
  · rw [if_neg hex]
    show mapFind (s.records ++ [(p, newNodeState)]) q = _
    rw [mapFind_append, mapFind_cons, if_neg (fun hc => h hc.symm), mapFind_nil]
    cases mapFind s.records q <;> rfl

theorem nodeOf_getNodeState (s : MapStore) (p : String) :
    nodeOf (getNodeStateStore s p) p = nodeOf s p := by
  show (mapFind (getNodeStateStore s p).records p).getD newNodeState = _
  rw [nodeOf_getNodeState_self]
  rfl

theorem nodeOf_mapSet_self (l : List (String × NodeState)) (p : String) (ns : NodeState) :
    nodeOf { records := mapSet l p ns } p = ns := by
  show (mapFind (mapSet l p ns) p).getD newNodeState = ns
  rw [mapFind_mapSet_self]
  rfl

/-! ### Trust-store behaviour -/

/-- Unfolding `StoreEvent` when the identifier resolves. -/
theorem StoreEvent_ok (s : MapStore) (ev : Event) (idx : Identifier)
    (h : Event.GetIdentifier ev = .ok idx) :
    StoreEvent s ev =
      (if ev.kind = KindNodeAnnouncement then
        match registerAnnouncement (nodeOf s idx.PubKey) ev idx with
        | .error e => (getNodeStateStore s idx.PubKey, some e)
        | .ok ns2 =>
          ({ records := mapSet (getNodeStateStore s idx.PubKey).records idx.PubKey ns2 }, none)
      else
        match storeRegularEvent (nodeOf s idx.PubKey) ev idx with
        | .error e => (getNodeStateStore s idx.PubKey, some e)
        | .ok ns2 =>
          ({ records := mapSet (getNodeStateStore s idx.PubKey).records idx.PubKey ns2 }, none)) := by
  unfold StoreEvent
  rw [h]
  show (if ev.kind = KindNodeAnnouncement then
          match registerAnnouncement
              ((mapFind (getNodeStateStore s idx.PubKey).records idx.PubKey).getD newNodeState)
              ev idx with
          | .error e => (getNodeStateStore s idx.PubKey, some e)
          | .ok ns2 =>
            ({ records := mapSet (getNodeStateStore s idx.PubKey).records idx.PubKey ns2 }, none)
        else
          match storeRegularEvent
              ((mapFind (getNodeStateStore s idx.PubKey).records idx.PubKey).getD newNodeState)
              ev idx with
          | .error e => (getNodeStateStore s idx.PubKey, some e)
          | .ok ns2 =>
            ({ records := mapSet (getNodeStateStore s idx.PubKey).records idx.PubKey ns2 }, none)) = _
  rw [nodeOf_getNodeState_self, Option.getD_some]

theorem registerAnnouncement_stale {ns : NodeState} {ev : Event} {idx : Identifier}
    (h : ev.NostrEvent.CreatedAt ≤ ns.lastAnnouncement.createdAt) :
    registerAnnouncement ns ev idx = .error Err.existingAnnouncementNewer := by
  unfold registerAnnouncement
  rw [if_pos (by omega)]

theorem registerAnnouncement_fresh {ns : NodeState} {ev : Event} {idx : Identifier}
    (h : ns.lastAnnouncement.createdAt < ev.NostrEvent.CreatedAt) :
    registerAnnouncement ns ev idx = .ok
      { lastAnnouncement := { createdAt := ev.NostrEvent.CreatedAt, pub := ev.NostrEvent.PubKey },
        events := mapSet (if ns.lastAnnouncement.pub ≠ ev.NostrEvent.PubKey then []
          else ns.events) idx.TagD ev } := by
  unfold registerAnnouncement
  rw [if_neg (by omega)]

theorem storeRegularEvent_mismatch {ns : NodeState} {ev : Event} {idx : Identifier}
    (h : ns.lastAnnouncement.pub ≠ ev.NostrEvent.PubKey) :
    storeRegularEvent ns ev idx = .error Err.eventPubkeyMismatch := by
  unfold storeRegularEvent
  rw [if_pos h]

theorem storeRegularEvent_stale {ns : NodeState} {ev : Event} {idx : Identifier} {old : Event}
    (hpub : ns.lastAnnouncement.pub = ev.NostrEvent.PubKey)
    (hold : mapFind ns.events idx.TagD = some old)
    (h : ev.NostrEvent.CreatedAt ≤ old.NostrEvent.CreatedAt) :
    storeRegularEvent ns ev idx = .error Err.existingRecordNewer := by
  unfold storeRegularEvent
  rw [if_neg (fun hc => hc hpub), hold]
  show (if old.NostrEvent.CreatedAt ≥ ev.NostrEvent.CreatedAt then
      (Except.error Err.existingRecordNewer : Except Err NodeState)
    else Except.ok ({ lastAnnouncement := ns.lastAnnouncement,
                      events := mapSet ns.events idx.TagD ev } : NodeState)) = _
  rw [if_pos (by omega)]

theorem storeRegularEvent_fresh {ns : NodeState} {ev : Event} {idx : Identifier} {old : Event}
    (hpub : ns.lastAnnouncement.pub = ev.NostrEvent.PubKey)
    (hold : mapFind ns.events idx.TagD = some old)
    (h : old.NostrEvent.CreatedAt < ev.NostrEvent.CreatedAt) :
    storeRegularEvent ns ev idx = .ok { ns with events := mapSet ns.events idx.TagD ev } := by
  unfold storeRegularEvent
  rw [if_neg (fun hc => hc hpub), hold]
  show (if old.NostrEvent.CreatedAt ≥ ev.NostrEvent.CreatedAt then
      (Except.error Err.existingRecordNewer : Except Err NodeState)
    else Except.ok ({ lastAnnouncement := ns.lastAnnouncement,
                      events := mapSet ns.events idx.TagD ev } : NodeState)) = _
  rw [if_neg (by omega)]

theorem StoreEvent_anchor_fresh (s : MapStore) (ev : Event) (idx : Identifier)
    (h : Event.GetIdentifier ev = .ok idx) (hk : ev.kind = KindNodeAnnouncement)
    (hts : (nodeOf s idx.PubKey).lastAnnouncement.createdAt < ev.NostrEvent.CreatedAt) :
    StoreEvent s ev =
      ({ records := mapSet (getNodeStateStore s idx.PubKey).records idx.PubKey
          { lastAnnouncement := { createdAt := ev.NostrEvent.CreatedAt,
                                  pub := ev.NostrEvent.PubKey },
            events := mapSet
              (if (nodeOf s idx.PubKey).lastAnnouncement.pub ≠ ev.NostrEvent.PubKey then []
               else (nodeOf s idx.PubKey).events) idx.TagD ev } }, none) := by
  rw [StoreEvent_ok s ev idx h, if_pos hk, registerAnnouncement_fresh hts]

theorem StoreEvent_anchor_stale (s : MapStore) (ev : Event) (idx : Identifier)
    (h : Event.GetIdentifier ev = .ok idx) (hk : ev.kind = KindNodeAnnouncement)
    (hts : ev.NostrEvent.CreatedAt ≤ (nodeOf s idx.PubKey).lastAnnouncement.createdAt) :
    StoreEvent s ev = (getNodeStateStore s idx.PubKey, some Err.existingAnnouncementNewer) := by
  rw [StoreEvent_ok s ev idx h, if_pos hk, registerAnnouncement_stale hts]

theorem StoreEvent_regular_mismatch (s : MapStore) (ev : Event) (idx : Identifier)
    (h : Event.GetIdentifier ev = .ok idx) (hk : ev.kind ≠ KindNodeAnnouncement)
    (hpub : (nodeOf s idx.PubKey).lastAnnouncement.pub ≠ ev.NostrEvent.PubKey) :
    StoreEvent s ev = (getNodeStateStore s idx.PubKey, some Err.eventPubkeyMismatch) := by
  rw [StoreEvent_ok s ev idx h, if_neg hk, storeRegularEvent_mismatch hpub]

theorem StoreEvent_regular_stale (s : MapStore) (ev : Event) (idx : Identifier) (old : Event)
    (h : Event.GetIdentifier ev = .ok idx) (hk : ev.kind ≠ KindNodeAnnouncement)
    (hpub : (nodeOf s idx.PubKey).lastAnnouncement.pub = ev.NostrEvent.PubKey)
    (hold : mapFind (nodeOf s idx.PubKey).events idx.TagD = some old)
    (hts : ev.NostrEvent.CreatedAt ≤ old.NostrEvent.CreatedAt) :
    StoreEvent s ev = (getNodeStateStore s idx.PubKey, some Err.existingRecordNewer) := by
  rw [StoreEvent_ok s ev idx h, if_neg hk, storeRegularEvent_stale hpub hold hts]

theorem StoreEvent_regular_fresh (s : MapStore) (ev : Event) (idx : Identifier) (old : Event)
    (h : Event.GetIdentifier ev = .ok idx) (hk : ev.kind ≠ KindNodeAnnouncement)
    (hpub : (nodeOf s idx.PubKey).lastAnnouncement.pub = ev.NostrEvent.PubKey)
    (hold : mapFind (nodeOf s idx.PubKey).events idx.TagD = some old)
    (hts : old.NostrEvent.CreatedAt < ev.NostrEvent.CreatedAt) :
    StoreEvent s ev =
      ({ records := mapSet (getNodeStateStore s idx.PubKey).records idx.PubKey
          { lastAnnouncement := (nodeOf s idx.PubKey).lastAnnouncement,
            events := mapSet (nodeOf s idx.PubKey).events idx.TagD ev } }, none) := by
  rw [StoreEvent_ok s ev idx h, if_neg hk, storeRegularEvent_fresh hpub hold hts]

/-- C2: a trust-anchor record is accepted only when its createdAt is
strictly greater than the current lastAnnouncement.createdAt (acceptance is
equivalent to strict newness, and acceptance installs the new timestamp, so
accepted announcement timestamps strictly increase); a stale or equal
announcement fails with the stale-announcement error, leaving the node
state unchanged; a non-trust-anchor record replaces an occupied slot only
when strictly newer (else the stale-record error). -/
theorem storeEvent_monotonicity (s : MapStore) (ev : Event) (idx : Identifier)
    (h : Event.GetIdentifier ev = .ok idx) :
    (ev.kind = KindNodeAnnouncement →
      (((StoreEvent s ev).2 = none) ↔
        (nodeOf s idx.PubKey).lastAnnouncement.createdAt < ev.NostrEvent.CreatedAt) ∧
      ((StoreEvent s ev).2 = none →
        (nodeOf (StoreEvent s ev).1 idx.PubKey).lastAnnouncement =
          { createdAt := ev.NostrEvent.CreatedAt, pub := ev.NostrEvent.PubKey }) ∧
      (ev.NostrEvent.CreatedAt ≤ (nodeOf s idx.PubKey).lastAnnouncement.createdAt →
        StoreEvent s ev = (getNodeStateStore s idx.PubKey, some Err.existingAnnouncementNewer) ∧
        nodeOf (StoreEvent s ev).1 idx.PubKey = nodeOf s idx.PubKey)) ∧
    (ev.kind ≠ KindNodeAnnouncement →
      ∀ old, mapFind (nodeOf s idx.PubKey).events idx.TagD = some old →
        (((StoreEvent s ev).2 = none) ↔
          ((nodeOf s idx.PubKey).lastAnnouncement.pub = ev.NostrEvent.PubKey ∧
            old.NostrEvent.CreatedAt < ev.NostrEvent.CreatedAt)) ∧
        ((StoreEvent s ev).2 = none →
          mapFind (nodeOf (StoreEvent s ev).1 idx.PubKey).events idx.TagD = some ev) ∧
        ((nodeOf s idx.PubKey).lastAnnouncement.pub = ev.NostrEvent.PubKey →
          ev.NostrEvent.CreatedAt ≤ old.NostrEvent.CreatedAt →
          (StoreEvent s ev).2 = some Err.existingRecordNewer)) := by
  constructor
  · intro hk
    refine ⟨?_, ?_, ?_⟩
    · by_cases hts : (nodeOf s idx.PubKey).lastAnnouncement.createdAt < ev.NostrEvent.CreatedAt
      · rw [StoreEvent_anchor_fresh s ev idx h hk hts]
        simp [hts]
      · rw [StoreEvent_anchor_stale s ev idx h hk (by omega)]
        simp
        omega
    · intro hnone
      by_cases hts : (nodeOf s idx.PubKey).lastAnnouncement.createdAt < ev.NostrEvent.CreatedAt
      · rw [StoreEvent_anchor_fresh s ev idx h hk hts]
        simp [nodeOf_mapSet_self]
      · rw [StoreEvent_anchor_stale s ev idx h hk (by omega)] at hnone
        simp at hnone
    · intro hts
      rw [StoreEvent_anchor_stale s ev idx h hk hts]
      exact ⟨rfl, by simp [nodeOf_getNodeState]⟩
  · intro hk old hold
    refine ⟨?_, ?_, ?_⟩
    · by_cases hpub : (nodeOf s idx.PubKey).lastAnnouncement.pub = ev.NostrEvent.PubKey
      · by_cases hts : old.NostrEvent.CreatedAt < ev.NostrEvent.CreatedAt
        · rw [StoreEvent_regular_fresh s ev idx old h hk hpub hold hts]
          simp [hpub, hts]
        · rw [StoreEvent_regular_stale s ev idx old h hk hpub hold (by omega)]
          simp
          omega
      · rw [StoreEvent_regular_mismatch s ev idx h hk hpub]
        simp [hpub]
    · intro hnone
      by_cases hpub : (nodeOf s idx.PubKey).lastAnnouncement.pub = ev.NostrEvent.PubKey
      · by_cases hts : old.NostrEvent.CreatedAt < ev.NostrEvent.CreatedAt
        · rw [StoreEvent_regular_fresh s ev idx old h hk hpub hold hts]
          simp [nodeOf_mapSet_self, mapFind_mapSet_self]
        · rw [StoreEvent_regular_stale s ev idx old h hk hpub hold (by omega)] at hnone
          simp at hnone
      · rw [StoreEvent_regular_mismatch s ev idx h hk hpub] at hnone
        simp at hnone
    · intro hpub hts
      rw [StoreEvent_regular_stale s ev idx old h hk hpub hold hts]

theorem storeEvent_monotonicity_witness :
    StoreEvent (StoreEvent NewMapStore (anchorEv "A" "n" 100)).1 (anchorEv "A" "n" 100) =
      (getNodeStateStore (StoreEvent NewMapStore (anchorEv "A" "n" 100)).1 "n",
        some Err.existingAnnouncementNewer) ∧
    nodeOf (StoreEvent (StoreEvent NewMapStore (anchorEv "A" "n" 100)).1
        (anchorEv "A" "n" 100)).1 "n" =
      nodeOf (StoreEvent NewMapStore (anchorEv "A" "n" 100)).1 "n" ∧
    (nodeOf (StoreEvent NewMapStore (anchorEv "A" "n" 100)).1 "n").lastAnnouncement.pub = "A" :=
  have happ := ((storeEvent_monotonicity (StoreEvent NewMapStore (anchorEv "A" "n" 100)).1
    (anchorEv "A" "n" 100) { TagD := "n", Network := "", PubKey := "n", Kind := 0, Opts := [] }
    (by decide)).1 (by decide)).2.2 (by decide)
  ⟨happ.1, happ.2, by decide⟩

theorem mapSet_nil {α : Type} (k : String) (v : α) :
    mapSet ([] : List (String × α)) k v = [(k, v)] := rfl

/-- C1: compromise containment.  A non-trust-anchor event is accepted into
the slot map only if its broadcast pubkey equals the node's current
lastAnnouncement pubkey (a mismatch fails with the untrusted-signer error);
when an accepted trust-anchor carries a different broadcast pubkey, all
existing slots are discarded — the node state afterwards holds exactly the
new announcement — and a subsequent non-anchor record signed by the old
identity is rejected with the untrusted-signer error. -/
theorem storeEvent_compromise_containment (s : MapStore) (ev : Event) (idx : Identifier)
    (h : Event.GetIdentifier ev = .ok idx) :
    (ev.kind ≠ KindNodeAnnouncement →
      ((StoreEvent s ev).2 = none →
        ev.NostrEvent.PubKey = (nodeOf s idx.PubKey).lastAnnouncement.pub) ∧
      (ev.NostrEvent.PubKey ≠ (nodeOf s idx.PubKey).lastAnnouncement.pub →
        (StoreEvent s ev).2 = some Err.eventPubkeyMismatch)) ∧
    (ev.kind = KindNodeAnnouncement → (StoreEvent s ev).2 = none →
      ev.NostrEvent.PubKey ≠ (nodeOf s idx.PubKey).lastAnnouncement.pub →
      nodeOf (StoreEvent s ev).1 idx.PubKey =
        { lastAnnouncement := { createdAt := ev.NostrEvent.CreatedAt,
                                pub := ev.NostrEvent.PubKey },
          events := [(idx.TagD, ev)] } ∧
      (∀ ev2 idx2, Event.GetIdentifier ev2 = .ok idx2 → idx2.PubKey = idx.PubKey →
        ev2.kind ≠ KindNodeAnnouncement →
        ev2.NostrEvent.PubKey = (nodeOf s idx.PubKey).lastAnnouncement.pub →
        (StoreEvent (StoreEvent s ev).1 ev2).2 = some Err.eventPubkeyMismatch)) := by
  constructor
  · intro hk
    constructor
    · intro hnone
      by_contra hne
      rw [StoreEvent_regular_mismatch s ev idx h hk (fun hc => hne hc.symm)] at hnone
      simp at hnone
    · intro hne
      rw [StoreEvent_regular_mismatch s ev idx h hk (fun hc => hne hc.symm)]
  · intro hk hnone hne
    have hts : (nodeOf s idx.PubKey).lastAnnouncement.createdAt < ev.NostrEvent.CreatedAt := by
      by_contra hc
      rw [StoreEvent_anchor_stale s ev idx h hk (by omega)] at hnone
      simp at hnone
    have heq := StoreEvent_anchor_fresh s ev idx h hk hts
    have hafter : nodeOf (StoreEvent s ev).1 idx.PubKey =
        { lastAnnouncement := { createdAt := ev.NostrEvent.CreatedAt,
                                pub := ev.NostrEvent.PubKey },
          events := [(idx.TagD, ev)] } := by
      rw [heq]
      have hifz : (if (nodeOf s idx.PubKey).lastAnnouncement.pub ≠ ev.NostrEvent.PubKey
          then ([] : List (String × Event)) else (nodeOf s idx.PubKey).events) = [] :=
        if_pos (fun hc => hne hc.symm)
      simp only [hifz, mapSet_nil]
      simp [nodeOf_mapSet_self]
    refine ⟨hafter, ?_⟩
    intro ev2 idx2 h2 hpk hk2 hpub2
    have hsnew : (nodeOf (StoreEvent s ev).1 idx2.PubKey).lastAnnouncement.pub =
        ev.NostrEvent.PubKey := by
      rw [hpk, hafter]
    rw [StoreEvent_regular_mismatch (StoreEvent s ev).1 ev2 idx2 h2 hk2
      (by
        rw [hsnew, hpub2]
        exact fun hc => hne hc)]

theorem storeEvent_compromise_containment_witness :
    nodeOf (StoreEvent (StoreEvent (StoreEvent NewMapStore (anchorEv "A" "n" 10)).1
        (infoEv "A" "n" 11)).1 (anchorEv "B" "n" 20)).1 "n" =
      { lastAnnouncement := { createdAt := 20, pub := "B" },
        events := [("n", anchorEv "B" "n" 20)] } ∧
    (StoreEvent (StoreEvent (StoreEvent (StoreEvent NewMapStore (anchorEv "A" "n" 10)).1
        (infoEv "A" "n" 11)).1 (anchorEv "B" "n" 20)).1 (infoEv "A" "n" 21)).2 =
      some Err.eventPubkeyMismatch :=
  have happ := (storeEvent_compromise_containment
    (StoreEvent (StoreEvent NewMapStore (anchorEv "A" "n" 10)).1 (infoEv "A" "n" 11)).1
    (anchorEv "B" "n" 20) { TagD := "n", Network := "", PubKey := "n", Kind := 0, Opts := [] }
    (by decide)).2 (by decide) (by decide) (by decide)
  ⟨happ.1, happ.2 (infoEv "A" "n" 21)
    { TagD := "1:n:mainnet", Network := "mainnet", PubKey := "n", Kind := 1, Opts := [] }
    (by decide) (by decide) (by decide) (by decide)⟩

theorem StoreEvent_shape (s : MapStore) (ev : Event) :
    (StoreEvent s ev).1 = s ∨
    (∃ idx, Event.GetIdentifier ev = .ok idx ∧
      ((StoreEvent s ev).1 = getNodeStateStore s idx.PubKey ∨
       (∃ ns2, (StoreEvent s ev).1 =
          { records := mapSet (getNodeStateStore s idx.PubKey).records idx.PubKey ns2 } ∧
          (StoreEvent s ev).2 = none))) := by
  cases hid : Event.GetIdentifier ev with
  | error e =>
    left
    unfold StoreEvent
    rw [hid]
  | ok idx =>
    right
    refine ⟨idx, rfl, ?_⟩
    rw [StoreEvent_ok s ev idx hid]
    by_cases hk : ev.kind = KindNodeAnnouncement
    · rw [if_pos hk]
      cases hreg : registerAnnouncement (nodeOf s idx.PubKey) ev idx with
      | error e => left; rfl
      | ok ns2 => right; exact ⟨ns2, rfl, rfl⟩
    · rw [if_neg hk]
      cases hreg : storeRegularEvent (nodeOf s idx.PubKey) ev idx with
      | error e => left; rfl
      | ok ns2 => right; exact ⟨ns2, rfl, rfl⟩

/-- C9: rejection atomicity.  Whenever StoreEvent returns an error, every
node entry is either exactly what it was before the call or a freshly
created zero-valued NodeState for a previously absent pubkey (the lazy
`getNodeState` side effect); and no call — failing or not — ever removes a
node entry. -/
theorem storeEvent_rejection_atomic (s : MapStore) (ev : Event) :
    (∀ err, (StoreEvent s ev).2 = some err →
      ∀ p, mapFind (StoreEvent s ev).1.records p = mapFind s.records p ∨
        (mapFind s.records p = none ∧
          mapFind (StoreEvent s ev).1.records p = some newNodeState)) ∧
    (∀ p ns, mapFind s.records p = some ns →
      ∃ ns2, mapFind (StoreEvent s ev).1.records p = some ns2) := by
  constructor
  · intro err herr p
    rcases StoreEvent_shape s ev with h1 | ⟨idx, hid, h2 | ⟨ns2, hok, hnone⟩⟩
    · rw [h1]
      exact Or.inl rfl
    · rw [h2]
      by_cases hp : p = idx.PubKey
      · subst hp
        by_cases hex : (mapFind s.records idx.PubKey).isSome
        · left
          unfold getNodeStateStore
          rw [if_pos hex]
        · right
          have hnone2 : mapFind s.records idx.PubKey = none :=
            Option.not_isSome_iff_eq_none.1 hex
          refine ⟨hnone2, ?_⟩
          unfold getNodeStateStore
          rw [if_neg hex]
          show mapFind (s.records ++ [(idx.PubKey, newNodeState)]) idx.PubKey = _
          rw [mapFind_append, hnone2, Option.none_or, mapFind_cons, if_pos rfl]
      · left
        exact mapFind_getNodeState_other s idx.PubKey p hp
    · rw [hnone] at herr
      exact absurd herr (by simp)
  · intro p ns hp
    rcases StoreEvent_shape s ev with h1 | ⟨idx, hid, h2 | ⟨ns2, hok, _⟩⟩
    · rw [h1]
      exact ⟨ns, hp⟩
    · rw [h2]
      by_cases hpq : p = idx.PubKey
      · subst hpq
        rw [nodeOf_getNodeState_self]
        exact ⟨_, rfl⟩
      · rw [mapFind_getNodeState_other s idx.PubKey p hpq]
        exact ⟨ns, hp⟩
    · rw [hok]
      by_cases hpq : p = idx.PubKey
      · subst hpq
        refine ⟨ns2, ?_⟩
        show mapFind (mapSet (getNodeStateStore s idx.PubKey).records idx.PubKey ns2)
          idx.PubKey = some ns2
        exact mapFind_mapSet_self _ _ _
      · refine ⟨ns, ?_⟩
        show mapFind (mapSet (getNodeStateStore s idx.PubKey).records idx.PubKey ns2) p = some ns
        rw [mapFind_mapSet_other _ _ _ _ hpq,
          mapFind_getNodeState_other s idx.PubKey p hpq]
        exact hp

theorem storeEvent_rejection_atomic_witness :
    (mapFind (StoreEvent (StoreEvent NewMapStore (anchorEv "A" "n" 10)).1
        (anchorEv "B" "n" 10)).1.records "n" =
      mapFind (StoreEvent NewMapStore (anchorEv "A" "n" 10)).1.records "n" ∨
     (mapFind (StoreEvent NewMapStore (anchorEv "A" "n" 10)).1.records "n" = none ∧
      mapFind (StoreEvent (StoreEvent NewMapStore (anchorEv "A" "n" 10)).1
        (anchorEv "B" "n" 10)).1.records "n" = some newNodeState)) ∧
    (∃ ns2, mapFind (StoreEvent (StoreEvent NewMapStore (anchorEv "A" "n" 10)).1
        (anchorEv "B" "n" 10)).1.records "n" = some ns2) :=
  ⟨(storeEvent_rejection_atomic (StoreEvent NewMapStore (anchorEv "A" "n" 10)).1
      (anchorEv "B" "n" 10)).1 Err.existingAnnouncementNewer (by decide) "n",
   (storeEvent_rejection_atomic (StoreEvent NewMapStore (anchorEv "A" "n" 10)).1
      (anchorEv "B" "n" 10)).2 "n"
      { lastAnnouncement := { createdAt := 10, pub := "A" },
        events := [("n", anchorEv "A" "n" 10)] } (by decide)⟩

theorem copyWithoutSig_append_sig (e : Event) (s : String) :
    copyWithoutSig { e with NostrEvent := { e.NostrEvent with
      Tags := e.NostrEvent.Tags ++ [["sig", s]] } } = copyWithoutSig e := by
  unfold copyWithoutSig
  simp

theorem hash_append_sig (c : Crypto) (e : Event) (s : String) :
    Event.Hash c { e with NostrEvent := { e.NostrEvent with
      Tags := e.NostrEvent.Tags ++ [["sig", s]] } } = Event.Hash c e := by
  unfold Event.Hash
  rw [copyWithoutSig_append_sig]

/-- C6: the signable hash is computed over a copy of the event with every
"sig"-named tag removed: appending a ("sig", s) tag leaves the hash
unchanged, the copy keeps the pubkey, createdAt, kind, content and all
non-"sig" tags (the inputs the hash covers), and removing all "sig" tags
also leaves the hash unchanged. -/
theorem signableHash_sig_invariant (c : Crypto) (e : Event) (s : String) :
    Event.Hash c { e with NostrEvent := { e.NostrEvent with
        Tags := e.NostrEvent.Tags ++ [["sig", s]] } } = Event.Hash c e ∧
    (copyWithoutSig e).PubKey = e.NostrEvent.PubKey ∧
    (copyWithoutSig e).CreatedAt = e.NostrEvent.CreatedAt ∧
    (copyWithoutSig e).Kind = e.NostrEvent.Kind ∧
    (copyWithoutSig e).Content = e.NostrEvent.Content ∧
    (copyWithoutSig e).Tags = e.NostrEvent.Tags.filter (fun t =>
      !(match t with | a :: _ => a == "sig" | [] => false)) ∧
    Event.Hash c { e with NostrEvent := { e.NostrEvent with
        Tags := e.NostrEvent.Tags.filter (fun t =>
          !(match t with | a :: _ => a == "sig" | [] => false)) } } = Event.Hash c e := by
  refine ⟨hash_append_sig c e s, rfl, rfl, rfl, rfl, rfl, ?_⟩
  unfold Event.Hash
  congr 1
  unfold copyWithoutSig
  simp

theorem tagsFind_some {tags : List (List String)} {key : String} {t : List String}
    (h : tagsFind tags key = some t) : ∃ b rest, t = key :: b :: rest := by
  unfold tagsFind at h
  have hp := List.find?_some h
  match t, hp with
  | a :: b :: rest, hp =>
    simp only [beq_iff_eq] at hp
    exact ⟨b, rest, by rw [hp]⟩

theorem getIdentifier_eval (e : Event) (hid : e.id = none) :
    (∀ td, tagsFind e.NostrEvent.Tags "d" = some td →
      ∀ tk, tagsFind e.NostrEvent.Tags "k" = some tk →
        (∀ n, atoi (tagValue tk) = some n →
          (n = KindNodeAnnouncement →
            Event.GetIdentifier e =
              .ok { TagD := tagValue td, Network := "", PubKey := tagValue td,
                    Kind := n, Opts := [] }) ∧
          (n ≠ KindNodeAnnouncement →
            ((goSplit (tagValue td) ':').length < 3 →
              Event.GetIdentifier e = .error Err.invalidDTagFormat) ∧
            (¬ (goSplit (tagValue td) ':').length < 3 →
              Event.GetIdentifier e =
                .ok { TagD := tagValue td,
                      Network := (goSplit (tagValue td) ':').getD 2 "",
                      PubKey := (goSplit (tagValue td) ':').getD 1 "",
                      Kind := n, Opts := (goSplit (tagValue td) ':').drop 3 }))) ∧
        (atoi (tagValue tk) = none → Event.GetIdentifier e = .error Err.invalidKindInKTag)) ∧
    (tagsFind e.NostrEvent.Tags "d" = none →
      Event.GetIdentifier e = .error Err.missingOrInvalidDTag) ∧
    (∀ td, tagsFind e.NostrEvent.Tags "d" = some td →
      tagsFind e.NostrEvent.Tags "k" = none →
      Event.GetIdentifier e = .error Err.missingOrInvalidKTag) := by
  have hgid : Event.GetIdentifier e = computeIdentifier e.NostrEvent := by
    unfold Event.GetIdentifier
    rw [hid]
  refine ⟨?_, ?_, ?_⟩
  · intro td htd tk htk
    obtain ⟨bd, restd, rfl⟩ := tagsFind_some htd
    obtain ⟨bk, restk, rfl⟩ := tagsFind_some htk
    have hlen_d : ¬ (("d" :: bd :: restd).length < 2) := by simp
    have hlen_k : ¬ (("k" :: bk :: restk).length < 2) := by simp
    constructor
    · intro n hn
      constructor
      · intro hzero
        rw [hgid]
        unfold computeIdentifier
        simp [htd, htk, hn, hlen_d, hlen_k, hzero]
        rw [if_neg (by omega), if_neg (by omega)]
      · intro hnz
        constructor
        · intro hparts
          rw [hgid]
          unfold computeIdentifier
          simp [htd, htk, hn, hlen_d, hlen_k, hnz, hparts]
          rw [if_neg (by omega), if_neg (by omega)]
        · intro hparts
          rw [hgid]
          unfold computeIdentifier
          simp [htd, htk, hn, hlen_d, hlen_k, hnz, hparts]
          rw [if_neg (by omega), if_neg (by omega)]
    · intro hn
      rw [hgid]
      unfold computeIdentifier
      simp [htd, htk, hn, hlen_d, hlen_k]
      rw [if_neg (by omega), if_neg (by omega)]
  · intro htd
    rw [hgid]
    unfold computeIdentifier
    rw [htd]
  · intro td htd htk
    obtain ⟨bd, restd, rfl⟩ := tagsFind_some htd
    have hlen_d : ¬ (("d" :: bd :: restd).length < 2) := by simp
    rw [hgid]
    unfold computeIdentifier
    simp [htd, htk, hlen_d]

/-- C4 (amended): GetIdentifier succeeds exactly on records whose tag set
contains at least one "d" tag and at least one "k" tag each carrying a
value — the first of each is used; a tag without a value is ignored as if
absent — with the "k" value an integer and, for non-trust-anchor kinds, a
"d" value splitting into at least 3 colon-separated parts; each failure
mode returns the corresponding malformed-tag error, the trust-anchor "d"
value becomes the Lightning pubkey with empty network and opts, and
otherwise the parts map to kind, pubkey, network and opts. -/
theorem getIdentifier_spec (e : Event) (hid : e.id = none) :
    (∀ td, tagsFind e.NostrEvent.Tags "d" = some td →
      ∀ tk, tagsFind e.NostrEvent.Tags "k" = some tk →
        (∀ n, atoi (tagValue tk) = some n →
          (n = KindNodeAnnouncement →
            Event.GetIdentifier e =
              .ok { TagD := tagValue td, Network := "", PubKey := tagValue td,
                    Kind := n, Opts := [] }) ∧
          (n ≠ KindNodeAnnouncement →
            ((goSplit (tagValue td) ':').length < 3 →
              Event.GetIdentifier e = .error Err.invalidDTagFormat) ∧
            (¬ (goSplit (tagValue td) ':').length < 3 →
              Event.GetIdentifier e =
                .ok { TagD := tagValue td,
                      Network := (goSplit (tagValue td) ':').getD 2 "",
                      PubKey := (goSplit (tagValue td) ':').getD 1 "",
                      Kind := n, Opts := (goSplit (tagValue td) ':').drop 3 }))) ∧
        (atoi (tagValue tk) = none → Event.GetIdentifier e = .error Err.invalidKindInKTag)) ∧
    (tagsFind e.NostrEvent.Tags "d" = none →
      Event.GetIdentifier e = .error Err.missingOrInvalidDTag) ∧
    (∀ td, tagsFind e.NostrEvent.Tags "d" = some td →
      tagsFind e.NostrEvent.Tags "k" = none →
      Event.GetIdentifier e = .error Err.missingOrInvalidKTag) :=
  getIdentifier_eval e hid

/-- C4 counterexample: a record carrying two "d" tags (not exactly one) on
which GetIdentifier nevertheless succeeds, using the first. -/
theorem getIdentifier_duplicate_d_tags :
    Event.GetIdentifier
      { NostrEvent := { ID := "", PubKey := "", CreatedAt := 0, Kind := 0,
                        Tags := [["d", "a"], ["d", "b"], ["k", "0"]],
                        Content := "", Sig := "" },
        kind := 0, finalized := true, id := none } =
      .ok { TagD := "a", Network := "", PubKey := "a", Kind := 0, Opts := [] } ∧
    ([["d", "a"], ["d", "b"], ["k", "0"]].countP
      (fun t => decide (t.head? = some "d"))) = 2 := by decide

theorem getIdentifier_spec_witness :
    Event.GetIdentifier (infoEv "A" "n" 5) =
      .ok { TagD := "1:n:mainnet", Network := "mainnet", PubKey := "n",
            Kind := 1, Opts := [] } :=
  have h := ((getIdentifier_spec (infoEv "A" "n" 5) rfl).1
    ["d", "1:n:mainnet"] (by decide) ["k", "1"] (by decide)).1 1 (by decide)
  (h.2 (by decide)).2 (by decide)

theorem tagsFind_append (l1 l2 : List (List String)) (key : String) :
    tagsFind (l1 ++ l2) key = (tagsFind l1 key).or (tagsFind l2 key) := by
  unfold tagsFind
  rw [List.find?_append]

theorem finalize_ok (e0 : Event) (network pubkey : String) (kind : Int) (opts : List String)
    (hd : tagsFind e0.NostrEvent.Tags "d" = none)
    (hk : tagsFind e0.NostrEvent.Tags "k" = none) :
    Event.Finalize e0 network pubkey kind opts = .ok { e0 with
      kind := kind,
      finalized := true,
      NostrEvent := { e0.NostrEvent with
        Kind := KindLightningInformation,
        Tags := e0.NostrEvent.Tags ++
          [["d", if kind = KindNodeAnnouncement then pubkey
                 else goJoin ':' (itoa kind :: pubkey :: network :: opts)],
           ["k", itoa kind]] } } := by
  unfold Event.Finalize
  rw [hd, hk]
  simp

/-- C5 (amended): for every pubkey, network and opts containing no ':'
character (and int64-range kind), Finalize synthesizes the "d" tag exactly
as specified — the bare pubkey for the trust-anchor kind, the colon-joined
"<kindInt>:<pubkey>:<network>[:<opt>...]" otherwise — and re-parsing the
finalized event reproduces the pubkey and kind; for non-anchor kinds it
also reproduces the network and opts, while for the trust-anchor kind the
re-parsed network and opts are empty. -/
theorem finalize_roundtrip (network pubkey : String) (kind : Int) (opts : List String)
    (e0 : Event)
    (hd : tagsFind e0.NostrEvent.Tags "d" = none)
    (hk : tagsFind e0.NostrEvent.Tags "k" = none)
    (hid : e0.id = none)
    (hk1 : -(int64Max + 1) ≤ kind) (hk2 : kind ≤ int64Max)
    (hp : ':' ∉ pubkey.data) (hn : ':' ∉ network.data)
    (ho : ∀ o ∈ opts, ':' ∉ o.data) :
    ∃ e1, Event.Finalize e0 network pubkey kind opts = .ok e1 ∧
      tagsFind e1.NostrEvent.Tags "d" =
        some ["d", if kind = KindNodeAnnouncement then pubkey
                   else goJoin ':' (itoa kind :: pubkey :: network :: opts)] ∧
      ∃ idx, Event.GetIdentifier e1 = .ok idx ∧
        idx.PubKey = pubkey ∧ idx.Kind = kind ∧
        (kind ≠ KindNodeAnnouncement → idx.Network = network ∧ idx.Opts = opts) ∧
        (kind = KindNodeAnnouncement → idx.Network = "" ∧ idx.Opts = []) := by
  refine ⟨_, finalize_ok e0 network pubkey kind opts hd hk, ?_, ?_⟩
  · rw [tagsFind_append, hd, Option.none_or]
    unfold tagsFind
    rw [List.find?_cons_of_pos _ (by simp)]
  · set tagD := (if kind = KindNodeAnnouncement then pubkey
      else goJoin ':' (itoa kind :: pubkey :: network :: opts)) with htagD
    have htd : tagsFind (e0.NostrEvent.Tags ++ [["d", tagD], ["k", itoa kind]]) "d" =
        some ["d", tagD] := by
      rw [tagsFind_append, hd, Option.none_or]
      unfold tagsFind
      rw [List.find?_cons_of_pos _ (by simp)]
    have htk : tagsFind (e0.NostrEvent.Tags ++ [["d", tagD], ["k", itoa kind]]) "k" =
        some ["k", itoa kind] := by
      rw [tagsFind_append, hk, Option.none_or]
      unfold tagsFind
      rw [List.find?_cons_of_neg _ (by simp), List.find?_cons_of_pos _ (by simp)]
    have heval := getIdentifier_eval { e0 with
      kind := kind, finalized := true,
      NostrEvent := { e0.NostrEvent with
        Kind := KindLightningInformation,
        Tags := e0.NostrEvent.Tags ++ [["d", tagD], ["k", itoa kind]] } } hid
    have hmain := (heval.1 _ htd _ htk).1 kind (by
      show atoi (tagValue ["k", itoa kind]) = some kind
      show atoi (itoa kind) = some kind
      exact atoi_itoa hk1 hk2)
    by_cases hz : kind = KindNodeAnnouncement
    · refine ⟨_, hmain.1 hz, ?_, ?_, ?_, ?_⟩
      · show tagValue ["d", tagD] = pubkey
        show tagD = pubkey
        rw [htagD, if_pos hz]
      · rfl
      · intro hc
        exact absurd hz hc
      · intro _
        exact ⟨rfl, rfl⟩
    · have hsplit : goSplit (tagValue ["d", tagD]) ':' =
          itoa kind :: pubkey :: network :: opts := by
        show goSplit tagD ':' = _
        rw [htagD, if_neg hz]
        apply goSplit_goJoin
        · simp
        · intro x hx
          rcases List.mem_cons.1 hx with rfl | hx2
          · exact itoa_no_colon kind
          rcases List.mem_cons.1 hx2 with rfl | hx3
          · exact hp
          rcases List.mem_cons.1 hx3 with rfl | hx4
          · exact hn
          · exact ho x hx4
      have hlen : ¬ (goSplit (tagValue ["d", tagD]) ':').length < 3 := by
        rw [hsplit]
        simp
      refine ⟨_, (hmain.2 hz).2 hlen, ?_, ?_, ?_, ?_⟩
      · show (goSplit (tagValue ["d", tagD]) ':').getD 1 "" = pubkey
        rw [hsplit]
        rfl
      · rfl
      · intro _
        constructor
        · show (goSplit (tagValue ["d", tagD]) ':').getD 2 "" = network
          rw [hsplit]
          rfl
        · show (goSplit (tagValue ["d", tagD]) ':').drop 3 = opts
          rw [hsplit]
          rfl
      · intro hc
        exact absurd hc hz

/-- C5 counterexample: a pubkey containing ':' is accepted by Finalize but
re-parsing splits it apart — the round trip returns pubkey "a" and network
"b" instead of the original "a:b"/"mainnet". -/
theorem finalize_roundtrip_cex :
    roundTripId "mainnet" "a:b" 1 [] =
      .ok { TagD := "1:a:b:mainnet", Network := "b", PubKey := "a",
            Kind := 1, Opts := ["mainnet"] } ∧
    ("a" : String) ≠ "a:b" ∧ ("b" : String) ≠ "mainnet" := by decide

theorem finalize_roundtrip_witness :
    ∃ e1, Event.Finalize (freshPublishEvent "npub" 0 "") "mainnet" "n" 1 ["x"] = .ok e1 ∧
      tagsFind e1.NostrEvent.Tags "d" =
        some ["d", if (1 : Int) = KindNodeAnnouncement then "n"
                   else goJoin ':' (itoa 1 :: "n" :: "mainnet" :: ["x"])] ∧
      ∃ idx, Event.GetIdentifier e1 = .ok idx ∧
        idx.PubKey = "n" ∧ idx.Kind = 1 ∧
        ((1 : Int) ≠ KindNodeAnnouncement → idx.Network = "mainnet" ∧ idx.Opts = ["x"]) ∧
        ((1 : Int) = KindNodeAnnouncement → idx.Network = "" ∧ idx.Opts = []) :=
  finalize_roundtrip "mainnet" "n" 1 ["x"] (freshPublishEvent "npub" 0 "")
    (by decide) (by decide) rfl (by decide) (by decide) (by decide) (by decide)
    (by intro o ho; fin_cases ho; decide)

theorem computeIdentifier_kind {ne : NostrEvent} {idx : Identifier}
    (h : computeIdentifier ne = .ok idx) :
    ∃ tk, tagsFind ne.Tags "k" = some tk ∧ atoi (tagValue tk) = some idx.Kind := by
  unfold computeIdentifier at h
  split at h
  · exact absurd h (by simp)
  · split at h
    · exact absurd h (by simp)
    · split at h
      · exact absurd h (by simp)
      next tk htk =>
        split at h
        · exact absurd h (by simp)
        · split at h
          · exact absurd h (by simp)
          next n ha =>
            refine ⟨tk, htk, ?_⟩
            rw [ha]
            split at h
            · injection h with h2
              rw [← h2]
            · split at h
              · exact absurd h (by simp)
              · injection h with h2
                rw [← h2]

/-- C10: near-vacuity of the KindMismatch check.  For a relay event whose
"k" tag value is the canonical decimal rendering of an int64 integer, the
step-6 comparison in Verify (`k[1] == Itoa(idx.Kind)`) always passes once
identifier parsing succeeded, because the compared kind was itself parsed
from that same tag; and the check never detects a "d" tag encoding a
different kind number than the "k" tag — witnessed by an event whose "d"
tag embeds kind 5 while the "k" tag says 3, which passes Verify in full.
-/
theorem kindMismatch_near_vacuous :
    (∀ ne e idx n k0,
      NewEventFromNostrRelay ne = .ok e →
      Event.GetIdentifier e = .ok idx →
      tagsFind ne.Tags "k" = some k0 →
      tagValue k0 = itoa n →
      -(int64Max + 1) ≤ n → n ≤ int64Max →
      ∃ k, tagsFind e.NostrEvent.Tags "k" = some k ∧
        ¬ (k.length < 2 ∨ tagValue k ≠ itoa idx.Kind)) ∧
    (∃ e, NewEventFromNostrRelay
        { ID := "h", PubKey := "P", CreatedAt := 100, Kind := KindLightningInformation,
          Tags := [["d", "5:p:mainnet"], ["k", "3"]], Content := "", Sig := "" } = .ok e ∧
      Event.Verify cTest 100 e = (true, none) ∧
      (goSplit "5:p:mainnet" ':').getD 0 "" = "5" ∧
      itoa ((3 : Int)) = "3" ∧ ("5" : String) ≠ "3") := by
  constructor
  · intro ne e idx n k0 hnew hgid hk0 hv0 h1 h2
    unfold NewEventFromNostrRelay at hnew
    split at hnew
    · exact absurd hnew (by simp)
    next idx0 hci =>
      injection hnew with hnew2
      obtain ⟨tk, htk, ha⟩ := computeIdentifier_kind hci
      have hidx : idx = idx0 := by
        rw [← hnew2] at hgid
        have hcache : Event.GetIdentifier
            { NostrEvent := ne, kind := idx0.Kind, finalized := true, id := some idx0 } =
            .ok idx0 := rfl
        rw [hcache] at hgid
        injection hgid with h3
        exact h3.symm
      have hv : tagValue tk = itoa n := by
        rw [htk] at hk0
        injection hk0 with hk0e
        rw [hk0e]
        exact hv0
      rw [hv] at ha
      rw [atoi_itoa h1 h2] at ha
      injection ha with ha2
      obtain ⟨b, rest, rfl⟩ := tagsFind_some htk
      refine ⟨"k" :: b :: rest, ?_, ?_⟩
      · rw [← hnew2]
        exact htk
      · intro hc
        rcases hc with hc | hc
        · simp at hc
          omega
        · apply hc
          rw [hv, hidx, ← ha2]
  · refine ⟨{ NostrEvent := { ID := "h", PubKey := "P", CreatedAt := 100,
                              Kind := KindLightningInformation,
                              Tags := [["d", "5:p:mainnet"], ["k", "3"]],
                              Content := "", Sig := "" },
              kind := 3, finalized := true,
              id := some { TagD := "5:p:mainnet", Network := "mainnet", PubKey := "p",
                           Kind := 3, Opts := [] } },
      by decide, by decide, by decide, by decide, by decide⟩

theorem kindMismatch_near_vacuous_witness :
    ∃ k, tagsFind ([["d", "5:p:mainnet"], ["k", "3"]] : List (List String)) "k" = some k ∧
      ¬ (k.length < 2 ∨ tagValue k ≠ itoa ((3 : Int))) :=
  kindMismatch_near_vacuous.1
    { ID := "h", PubKey := "P", CreatedAt := 100, Kind := KindLightningInformation,
      Tags := [["d", "5:p:mainnet"], ["k", "3"]], Content := "", Sig := "" }
    { NostrEvent := { ID := "h", PubKey := "P", CreatedAt := 100,
                      Kind := KindLightningInformation,
                      Tags := [["d", "5:p:mainnet"], ["k", "3"]],
                      Content := "", Sig := "" },
      kind := 3, finalized := true,
      id := some { TagD := "5:p:mainnet", Network := "mainnet", PubKey := "p",
                   Kind := 3, Opts := [] } }
    { TagD := "5:p:mainnet", Network := "mainnet", PubKey := "p", Kind := 3, Opts := [] }
    3 ["k", "3"] (by decide) (by decide) (by decide) (by decide) (by decide) (by decide)

theorem verify_fail_time (c : Crypto) (now : Int) (e : Event) (h : ¬ vPassTime now e) :
    Event.Verify c now e = (false, some Err.eventTooFarInFuture) := by
  unfold Event.Verify
  unfold vPassTime at h
  rw [if_pos (by omega)]

theorem verify_fail_id (c : Crypto) (now : Int) (e : Event)
    (h1 : vPassTime now e) (h2 : ¬ vPassID c e) :
    Event.Verify c now e = (false, some Err.eventIdMismatch) := by
  unfold Event.Verify
  unfold vPassTime at h1
  unfold vPassID at h2
  rw [if_neg (by omega), if_pos h2]

theorem verify_fail_size (c : Crypto) (now : Int) (e : Event)
    (h1 : vPassTime now e) (h2 : vPassID c e) (h3 : ¬ vPassSize e) :
    Event.Verify c now e = (false, some Err.contentSizeExceeds) := by
  unfold Event.Verify
  unfold vPassTime at h1
  unfold vPassID at h2
  unfold vPassSize at h3
  rw [if_neg (by omega), if_neg (fun hc => hc h2), if_pos (by omega)]

theorem verify_fail_parse (c : Crypto) (now : Int) (e : Event) (err : Err)
    (h1 : vPassTime now e) (h2 : vPassID c e) (h3 : vPassSize e)
    (herr : Event.GetIdentifier e = .error err) :
    Event.Verify c now e = (false, some err) := by
  unfold Event.Verify
  unfold vPassTime at h1
  unfold vPassID at h2
  unfold vPassSize at h3
  rw [if_neg (by omega), if_neg (fun hc => hc h2), if_neg (by omega), herr]

theorem verify_unfold_idx (c : Crypto) (now : Int) (e : Event) (idx : Identifier)
    (h1 : vPassTime now e) (h2 : vPassID c e) (h3 : vPassSize e)
    (hidx : Event.GetIdentifier e = .ok idx) :
    Event.Verify c now e =
      (if idx.Kind ≠ KindNodeAnnouncement ∧ IsValidNetwork idx.Network = false then
        (false, some Err.invalidNetwork)
      else
        match tagsFind e.NostrEvent.Tags "k" with
        | none => (false, some Err.missingOrInvalidKTag)
        | some k =>
          if k.length < 2 ∨ tagValue k ≠ itoa idx.Kind then
            (false, some Err.missingOrInvalidKTag)
          else
            if (c.checkSig e.NostrEvent).2.isSome ∨ (c.checkSig e.NostrEvent).1 = false then
              (false, (c.checkSig e.NostrEvent).2)
            else
              if Event.RequiresLnSignature e then
                if (checkLightningSig c e idx.PubKey).2.isSome ∨
                    (checkLightningSig c e idx.PubKey).1 = false then
                  (false, (checkLightningSig c e idx.PubKey).2)
                else (true, none)
              else (true, none)) := by
  unfold Event.Verify
  unfold vPassTime at h1
  unfold vPassID at h2
  unfold vPassSize at h3
  rw [if_neg (by omega), if_neg (fun hc => hc h2), if_neg (by omega), hidx]

theorem not_vPassNetwork_cond {idx : Identifier} (h5 : vPassNetwork idx) :
    ¬ (idx.Kind ≠ KindNodeAnnouncement ∧ IsValidNetwork idx.Network = false) := by
  intro hc
  have := h5 hc.1
  rw [this] at hc
  exact absurd hc.2 (by simp)

theorem verify_fail_network (c : Crypto) (now : Int) (e : Event) (idx : Identifier)
    (h1 : vPassTime now e) (h2 : vPassID c e) (h3 : vPassSize e)
    (hidx : Event.GetIdentifier e = .ok idx) (h5 : ¬ vPassNetwork idx) :
    Event.Verify c now e = (false, some Err.invalidNetwork) := by
  rw [verify_unfold_idx c now e idx h1 h2 h3 hidx]
  unfold vPassNetwork at h5
  push_neg at h5
  rw [if_pos ⟨h5.1, by
    cases hb : IsValidNetwork idx.Network with
    | true => exact absurd hb h5.2
    | false => rfl⟩]

theorem verify_fail_ktag (c : Crypto) (now : Int) (e : Event) (idx : Identifier)
    (h1 : vPassTime now e) (h2 : vPassID c e) (h3 : vPassSize e)
    (hidx : Event.GetIdentifier e = .ok idx) (h5 : vPassNetwork idx)
    (h6 : ¬ vPassKTag e idx) :
    Event.Verify c now e = (false, some Err.missingOrInvalidKTag) := by
  rw [verify_unfold_idx c now e idx h1 h2 h3 hidx, if_neg (not_vPassNetwork_cond h5)]
  unfold vPassKTag at h6
  push_neg at h6
  cases hk : tagsFind e.NostrEvent.Tags "k" with
  | none => rfl
  | some k => simp only [if_pos (h6 k hk)]

theorem verify_fail_sig (c : Crypto) (now : Int) (e : Event) (idx : Identifier)
    (h1 : vPassTime now e) (h2 : vPassID c e) (h3 : vPassSize e)
    (hidx : Event.GetIdentifier e = .ok idx) (h5 : vPassNetwork idx)
    (h6 : vPassKTag e idx) (h7 : ¬ vPassSig c e) :
    Event.Verify c now e = (false, (c.checkSig e.NostrEvent).2) := by
  rw [verify_unfold_idx c now e idx h1 h2 h3 hidx, if_neg (not_vPassNetwork_cond h5)]
  obtain ⟨k, hk, hcnd⟩ := h6
  rw [hk]
  simp only [if_neg hcnd]
  unfold vPassSig at h7
  have hfail : (c.checkSig e.NostrEvent).2.isSome = true ∨
      (c.checkSig e.NostrEvent).1 = false := by
    cases hcs : c.checkSig e.NostrEvent with
    | mk ok err =>
      rw [hcs] at h7
      by_cases hok : ok = true
      · left
        cases herr : err with
        | none => exact absurd (by rw [hok, herr]) h7
        | some x => simp
      · right
        cases ok with
        | true => exact absurd rfl hok
        | false => rfl
  rw [if_pos hfail]

theorem verify_fail_ln (c : Crypto) (now : Int) (e : Event) (idx : Identifier)
    (h1 : vPassTime now e) (h2 : vPassID c e) (h3 : vPassSize e)
    (hidx : Event.GetIdentifier e = .ok idx) (h5 : vPassNetwork idx)
    (h6 : vPassKTag e idx) (h7 : vPassSig c e)
    (hreq : Event.RequiresLnSignature e = true)
    (h8 : ¬ checkLightningSig c e idx.PubKey = (true, none)) :
    Event.Verify c now e = (false, (checkLightningSig c e idx.PubKey).2) := by
  rw [verify_unfold_idx c now e idx h1 h2 h3 hidx, if_neg (not_vPassNetwork_cond h5)]
  obtain ⟨k, hk, hcnd⟩ := h6
  rw [hk]
  simp only [if_neg hcnd]
  unfold vPassSig at h7
  rw [if_neg (by rw [h7]; simp), if_pos hreq]
  have hfail : (checkLightningSig c e idx.PubKey).2.isSome = true ∨
      (checkLightningSig c e idx.PubKey).1 = false := by
    cases hln : checkLightningSig c e idx.PubKey with
    | mk lnOk lnErr =>
      rw [hln] at h8
      by_cases hok : lnOk = true
      · left
        cases herr : lnErr with
        | none => exact absurd (by rw [hok, herr]) h8
        | some x => simp
      · right
        cases lnOk with
        | true => exact absurd rfl hok
        | false => rfl
  rw [if_pos hfail]

theorem verify_pass (c : Crypto) (now : Int) (e : Event) (idx : Identifier)
    (h1 : vPassTime now e) (h2 : vPassID c e) (h3 : vPassSize e)
    (hidx : Event.GetIdentifier e = .ok idx) (h5 : vPassNetwork idx)
    (h6 : vPassKTag e idx) (h7 : vPassSig c e) (h8 : vPassLn c e idx) :
    Event.Verify c now e = (true, none) := by
  rw [verify_unfold_idx c now e idx h1 h2 h3 hidx, if_neg (not_vPassNetwork_cond h5)]
  obtain ⟨k, hk, hcnd⟩ := h6
  rw [hk]
  simp only [if_neg hcnd]
  unfold vPassSig at h7
  rw [if_neg (by rw [h7]; simp)]
  by_cases hreq : Event.RequiresLnSignature e = true
  · rw [if_pos hreq, if_neg (by rw [h8 hreq]; simp)]
  · rw [if_neg hreq]

/-- C3: Verify performs the eight checks in order and short-circuits on the
first failure: it returns (true, none) iff all applicable checks pass, and
when the first failing check is number i the result is valid=false paired
with that check's error — the parse error itself for check 4, and the error
value accompanying the signature check for checks 7 and 8 (go-nostr's
CheckSignature reports a plain invalid signature as ok=false with a nil
error, and Verify forwards exactly that value). -/
theorem verify_ordered_checks (c : Crypto) (now : Int) (e : Event) :
    (Event.Verify c now e = (true, none) ↔
      vPassTime now e ∧ vPassID c e ∧ vPassSize e ∧
      ∃ idx, Event.GetIdentifier e = .ok idx ∧ vPassNetwork idx ∧ vPassKTag e idx ∧
        vPassSig c e ∧ vPassLn c e idx) ∧
    (¬ vPassTime now e → Event.Verify c now e = (false, some Err.eventTooFarInFuture)) ∧
    (vPassTime now e → ¬ vPassID c e →
      Event.Verify c now e = (false, some Err.eventIdMismatch)) ∧
    (vPassTime now e → vPassID c e → ¬ vPassSize e →
      Event.Verify c now e = (false, some Err.contentSizeExceeds)) ∧
    (vPassTime now e → vPassID c e → vPassSize e →
      ∀ err, Event.GetIdentifier e = .error err →
        Event.Verify c now e = (false, some err)) ∧
    (vPassTime now e → vPassID c e → vPassSize e →
      ∀ idx, Event.GetIdentifier e = .ok idx →
        (¬ vPassNetwork idx → Event.Verify c now e = (false, some Err.invalidNetwork)) ∧
        (vPassNetwork idx → ¬ vPassKTag e idx →
          Event.Verify c now e = (false, some Err.missingOrInvalidKTag)) ∧
        (vPassNetwork idx → vPassKTag e idx → ¬ vPassSig c e →
          Event.Verify c now e = (false, (c.checkSig e.NostrEvent).2)) ∧
        (vPassNetwork idx → vPassKTag e idx → vPassSig c e →
          Event.RequiresLnSignature e = true →
          checkLightningSig c e idx.PubKey ≠ (true, none) →
          Event.Verify c now e = (false, (checkLightningSig c e idx.PubKey).2))) := by
  refine ⟨⟨?_, ?_⟩, verify_fail_time c now e, verify_fail_id c now e,
    verify_fail_size c now e,
    fun h1 h2 h3 err herr => verify_fail_parse c now e err h1 h2 h3 herr,
    fun h1 h2 h3 idx hgi =>
      ⟨fun h5 => verify_fail_network c now e idx h1 h2 h3 hgi h5,
       fun h5 h6 => verify_fail_ktag c now e idx h1 h2 h3 hgi h5 h6,
       fun h5 h6 h7 => verify_fail_sig c now e idx h1 h2 h3 hgi h5 h6 h7,
       fun h5 h6 h7 hreq h8 => verify_fail_ln c now e idx h1 h2 h3 hgi h5 h6 h7 hreq h8⟩⟩
  · intro hv
    have h1 : vPassTime now e := by
      by_contra hc
      rw [verify_fail_time c now e hc] at hv
      exact absurd hv (by simp)
    have h2 : vPassID c e := by
      by_contra hc
      rw [verify_fail_id c now e h1 hc] at hv
      exact absurd hv (by simp)
    have h3 : vPassSize e := by
      by_contra hc
      rw [verify_fail_size c now e h1 h2 hc] at hv
      exact absurd hv (by simp)
    refine ⟨h1, h2, h3, ?_⟩
    cases hgi : Event.GetIdentifier e with
    | error err =>
      rw [verify_fail_parse c now e err h1 h2 h3 hgi] at hv
      exact absurd hv (by simp)
    | ok idx =>
      have h5 : vPassNetwork idx := by
        by_contra hc
        rw [verify_fail_network c now e idx h1 h2 h3 hgi hc] at hv
        exact absurd hv (by simp)
      have h6 : vPassKTag e idx := by
        by_contra hc
        rw [verify_fail_ktag c now e idx h1 h2 h3 hgi h5 hc] at hv
        exact absurd hv (by simp)
      have h7 : vPassSig c e := by
        by_contra hc
        rw [verify_fail_sig c now e idx h1 h2 h3 hgi h5 h6 hc] at hv
        exact absurd hv (by simp)
      have h8 : vPassLn c e idx := by
        intro hreq
        by_contra hc
        rw [verify_fail_ln c now e idx h1 h2 h3 hgi h5 h6 h7 hreq hc] at hv
        exact absurd hv (by simp)
      exact ⟨idx, rfl, h5, h6, h7, h8⟩
  · rintro ⟨h1, h2, h3, idx, hgi, h5, h6, h7, h8⟩
    exact verify_pass c now e idx h1 h2 h3 hgi h5 h6 h7 h8

theorem verify_ordered_checks_witness :
    Event.Verify cTest 0 (anchorEv "A" "n" 1000) =
      (false, some Err.eventTooFarInFuture) :=
  (verify_ordered_checks cTest 0 (anchorEv "A" "n" 1000)).2.1
    (by unfold vPassTime; decide)

theorem processRecord_acc (c : Crypto) (now : Int) (s : MapStore) (errs : List Err)
    (r : NostrEvent) :
    processRecord c now (s, errs) r =
      ((processRecord c now (s, []) r).1, errs ++ (processRecord c now (s, []) r).2) := by
  unfold processRecord
  cases hne : NewEventFromNostrRelay r with
  | error e => simp
  | ok lev =>
    by_cases hfail : (Event.Verify c now lev).1 = false ∨
        (Event.Verify c now lev).2.isSome = true
    · simp [hfail]
    · simp only [if_neg hfail]
      cases hs : (StoreEvent s lev).2 with
      | some e => simp [hs]
      | none => simp [hs]

theorem sync_acc (c : Crypto) (now : Int) (l : List NostrEvent) :
    ∀ (s : MapStore) (errs : List Err),
      l.foldl (processRecord c now) (s, errs) =
        ((l.foldl (processRecord c now) (s, [])).1,
          errs ++ (l.foldl (processRecord c now) (s, [])).2) := by
  induction l with
  | nil => intro s errs; simp
  | cons r t ih =>
    intro s errs
    rw [List.foldl_cons, List.foldl_cons]
    rw [processRecord_acc c now s errs r]
    rw [ih (processRecord c now (s, []) r).1 (errs ++ (processRecord c now (s, []) r).2)]
    rw [ih (processRecord c now (s, []) r).1 (processRecord c now (s, []) r).2]
    simp

/-- C7: the fetch/merge pipeline.  Record processing is compositional — a
batch splits into independent per-record steps whose warnings concatenate,
so one record's failure never aborts the rest; the client always runs the
trust-anchor pass first and runs a second pass exactly when the requested
kind is not the trust-anchor kind, appending the two passes' warnings; and
on the concrete five-record batch in which record 3 carries an invalid
broadcast-identity signature, the pipeline returns the other 4 stored
events together with exactly 1 warning (the embedding has no fatal-error
source: cancellation is outside the sequential model). -/
theorem fetchMerge_partial_success (c : Crypto) (now : Int) :
    (∀ (s : MapStore) (l1 l2 : List NostrEvent),
      syncStoreWithPool c now s (l1 ++ l2) =
        ((syncStoreWithPool c now (syncStoreWithPool c now s l1).1 l2).1,
         (syncStoreWithPool c now s l1).2 ++
           (syncStoreWithPool c now (syncStoreWithPool c now s l1).1 l2).2)) ∧
    (∀ (store : MapStore) (kind : Int) (pubkeys : List String)
        (fetch : Int → List NostrEvent),
      (kind ≠ KindNodeAnnouncement →
        ClientGetEvents c now store kind pubkeys fetch =
          (MapStore.GetEvents (syncStoreWithPool c now
              (syncStoreWithPool c now store (fetch KindNodeAnnouncement)).1
              (fetch kind)).1 kind pubkeys,
           (syncStoreWithPool c now
              (syncStoreWithPool c now store (fetch KindNodeAnnouncement)).1
              (fetch kind)).1,
           (syncStoreWithPool c now store (fetch KindNodeAnnouncement)).2 ++
             (syncStoreWithPool c now
               (syncStoreWithPool c now store (fetch KindNodeAnnouncement)).1
               (fetch kind)).2)) ∧
      (kind = KindNodeAnnouncement →
        ClientGetEvents c now store kind pubkeys fetch =
          (MapStore.GetEvents (syncStoreWithPool c now store (fetch kind)).1 kind pubkeys,
           (syncStoreWithPool c now store (fetch kind)).1,
           (syncStoreWithPool c now store (fetch kind)).2))) ∧
    ((ClientGetEvents cTest 100 NewMapStore KindNodeAnnouncement []
        (fun _ => rec5)).1.length = 4 ∧
     (ClientGetEvents cTest 100 NewMapStore KindNodeAnnouncement []
        (fun _ => rec5)).2.2.length = 1) := by
  refine ⟨?_, ?_, by decide, by decide⟩
  · intro s l1 l2
    unfold syncStoreWithPool
    rw [List.foldl_append]
    have h1 : l1.foldl (processRecord c now) (s, []) =
        ((l1.foldl (processRecord c now) (s, [])).1,
         (l1.foldl (processRecord c now) (s, [])).2) := rfl
    rw [h1]
    rw [sync_acc c now l2]
  · intro store kind pubkeys fetch
    constructor
    · intro hk
      unfold ClientGetEvents
      rw [if_pos hk]
    · intro hk
      unfold ClientGetEvents
      rw [if_neg (by rw [hk]; exact fun hc => hc rfl)]
      rw [hk]

theorem fetchMerge_partial_success_witness :
    ClientGetEvents cTest 100 NewMapStore 1 [] (fun _ => rec5) =
      (MapStore.GetEvents (syncStoreWithPool cTest 100
          (syncStoreWithPool cTest 100 NewMapStore rec5).1 rec5).1 1 [],
       (syncStoreWithPool cTest 100 (syncStoreWithPool cTest 100 NewMapStore rec5).1
         rec5).1,
       (syncStoreWithPool cTest 100 NewMapStore rec5).2 ++
         (syncStoreWithPool cTest 100
           (syncStoreWithPool cTest 100 NewMapStore rec5).1 rec5).2) :=
  ((fetchMerge_partial_success cTest 100).2.1 NewMapStore 1 [] (fun _ => rec5)).1
    (by decide)

/-- Evaluation of `checkLightningSig` when the record carries exactly one
    two-element `sig` tag: the guard passes and the zbase32/recover/hex
    pipeline runs on that tag value. -/
theorem checkLightningSig_eval (c : Crypto) (e : Event) (pkid sigStr : String)
    (hsigs : tagsFindAll e.NostrEvent.Tags "sig" = [["sig", sigStr]]) :
    checkLightningSig c e pkid =
      (match c.zbase32Decode sigStr with
       | none => (false, some Err.decodingSignature)
       | some sb =>
         match c.recoverCompact sb
             (c.doubleHashB (signedMsgHeader ++ strBytes (Event.Hash c e))) with
         | none => (false, some Err.recoveringPublicKey)
         | some pk =>
           if hexEncode pk ≠ pkid then (false, some Err.publicKeyMismatch)
           else (true, none)) := by
  unfold checkLightningSig
  rw [hsigs]
  rfl

/-- **C8.** Sign-then-verify round trip: for every well-formed payload
    (kind within the int64 range, content within the 1 MiB cap, and — for
    non-trust-anchor kinds — a recognized network and colon-free identifier
    parts), if the broadcast-identity signer returns an event with a correct
    ID and a signature its own check accepts, and the Lightning signer
    returns a signature that decodes and recovers to the declared Lightning
    pubkey, then the Finalize → SignEvent → Verify sequence that
    `Client.Publish` runs before transmission reports valid=true with no
    error. -/
theorem publish_sign_verify (c : Crypto) (now : Int)
    (lnSign : List Nat → Except Err String)
    (nostrSign : NostrEvent → Except Err NostrEvent)
    (pub content network lnPubKey : String) (kind : Int) (opts : List String)
    (hk1 : -(int64Max + 1) ≤ kind) (hk2 : kind ≤ int64Max)
    (hsize : content.utf8ByteSize ≤ MaxContentSize)
    (hnet : kind ≠ KindNodeAnnouncement → IsValidNetwork network = true)
    (hcolon : kind ≠ KindNodeAnnouncement →
      ':' ∉ lnPubKey.data ∧ ':' ∉ network.data ∧ ∀ o ∈ opts, ':' ∉ o.data)
    (hNostr : ∀ ne, ∃ ne2, nostrSign ne = .ok ne2 ∧
      ne2.PubKey = ne.PubKey ∧ ne2.CreatedAt = ne.CreatedAt ∧ ne2.Kind = ne.Kind ∧
      ne2.Tags = ne.Tags ∧ ne2.Content = ne.Content ∧
      ne2.ID = GetID c ne2 ∧ c.checkSig ne2 = (true, none))
    (hLn : ∀ msg, ∃ sigStr sb pk, lnSign msg = .ok sigStr ∧
      c.zbase32Decode sigStr = some sb ∧
      c.recoverCompact sb (c.doubleHashB (signedMsgHeader ++ msg)) = some pk ∧
      hexEncode pk = lnPubKey) :
    publishPipeline c now lnSign nostrSign pub content network lnPubKey kind opts =
      .ok (true, none) := by
  by_cases hz : kind = KindNodeAnnouncement
  · subst hz
    unfold publishPipeline
    rw [finalize_ok (freshPublishEvent pub now content) network lnPubKey
      KindNodeAnnouncement opts rfl rfl]
    rw [if_pos rfl]
    set ev1 : Event := { freshPublishEvent pub now content with
      kind := KindNodeAnnouncement,
      finalized := true,
      NostrEvent := { (freshPublishEvent pub now content).NostrEvent with
        Kind := KindLightningInformation,
        Tags := (freshPublishEvent pub now content).NostrEvent.Tags ++
          [["d", lnPubKey], ["k", itoa KindNodeAnnouncement]] } } with hev1
    obtain ⟨sigStr, sb, pk, hls, hzb, hrc, hhex⟩ := hLn (strBytes (Event.Hash c ev1))
    set ev1b : Event := { ev1 with NostrEvent := { ev1.NostrEvent with
      Tags := ev1.NostrEvent.Tags ++ [["sig", sigStr]] } } with hev1b
    have hnosig : tagsFind ev1.NostrEvent.Tags "sig" = none := by
      rw [hev1]
      rfl
    have hsignLn : signWithLn c lnSign ev1 = .ok ev1b := by
      unfold signWithLn
      rw [if_neg (by rw [hnosig]; simp)]
      rw [hls]
    obtain ⟨ne2, hns, hpub2, hca2, hek2, htg2, hct2, hidok, hcs⟩ := hNostr ev1b.NostrEvent
    have hsign : SignEvent c lnSign nostrSign ev1 = .ok { ev1b with NostrEvent := ne2 } := by
      unfold SignEvent
      rw [if_neg (by rw [hev1]; simp)]
      have hreq1 : Event.RequiresLnSignature ev1 = true := by
        rw [hev1]
        rfl
      rw [if_pos hreq1, hsignLn]
      show (match nostrSign ev1b.NostrEvent with
            | Except.error e => (Except.error (Err.signingWithNostr e) : Except Err Event)
            | Except.ok ne => Except.ok { ev1b with NostrEvent := ne }) = _
      rw [hns]
    show (match SignEvent c lnSign nostrSign ev1 with
          | Except.error e => Except.error e
          | Except.ok ev2 => Except.ok (Event.Verify c now ev2)) = Except.ok (true, none)
    rw [hsign]
    show Except.ok (Event.Verify c now { ev1b with NostrEvent := ne2 }) = .ok (true, none)
    congr 1
    set ev2 : Event := { ev1b with NostrEvent := ne2 } with hev2
    have htags : ev2.NostrEvent.Tags =
        [["d", lnPubKey], ["k", itoa KindNodeAnnouncement], ["sig", sigStr]] := by
      rw [hev2]
      show ne2.Tags = _
      rw [htg2, hev1b, hev1]
      rfl
    have hid2 : ev2.id = none := by
      rw [hev2, hev1b, hev1]
      rfl
    have htd : tagsFind ev2.NostrEvent.Tags "d" = some ["d", lnPubKey] := by
      rw [htags]
      rfl
    have htk : tagsFind ev2.NostrEvent.Tags "k" =
        some ["k", itoa KindNodeAnnouncement] := by
      rw [htags]
      rfl
    have hatoi : atoi (tagValue ["k", itoa KindNodeAnnouncement]) =
        some KindNodeAnnouncement := by
      show atoi (itoa KindNodeAnnouncement) = some KindNodeAnnouncement
      exact atoi_itoa hk1 hk2
    have hgi : Event.GetIdentifier ev2 =
        .ok { TagD := tagValue ["d", lnPubKey], Network := "",
              PubKey := tagValue ["d", lnPubKey],
              Kind := KindNodeAnnouncement, Opts := [] } :=
      (((getIdentifier_eval ev2 hid2).1 _ htd _ htk).1 KindNodeAnnouncement hatoi).1 rfl
    have hcopy : copyWithoutSig ev2 = copyWithoutSig ev1 := by
      unfold copyWithoutSig
      show ({ ID := "", PubKey := ne2.PubKey, CreatedAt := ne2.CreatedAt, Kind := ne2.Kind,
              Tags := ne2.Tags.filter _, Content := ne2.Content, Sig := "" } : NostrEvent) = _
      rw [hpub2, hca2, hek2, hct2, htg2]
      show ({ ID := "", PubKey := ev1b.NostrEvent.PubKey,
              CreatedAt := ev1b.NostrEvent.CreatedAt,
              Kind := ev1b.NostrEvent.Kind,
              Tags := (ev1.NostrEvent.Tags ++ [["sig", sigStr]]).filter _,
              Content := ev1b.NostrEvent.Content, Sig := "" } : NostrEvent) = _
      rw [List.filter_append]
      simp
    have hhash : Event.Hash c ev2 = Event.Hash c ev1 := by
      unfold Event.Hash GetID
      rw [hcopy]
    apply verify_pass c now ev2 _ _ _ _ hgi
    · unfold vPassNetwork
      intro hc
      exact absurd rfl hc
    · unfold vPassKTag
      refine ⟨["k", itoa KindNodeAnnouncement], htk, ?_⟩
      intro hc
      rcases hc with hc | hc
      · simp at hc
      · exact hc rfl
    · unfold vPassSig
      rw [hev2]
      exact hcs
    · unfold vPassLn
      intro _
      have hsigs : tagsFindAll ev2.NostrEvent.Tags "sig" = [["sig", sigStr]] := by
        rw [htags]
        rfl
      rw [checkLightningSig_eval c ev2 _ sigStr hsigs]
      rw [hhash, hzb]
      show (match c.recoverCompact sb
          (c.doubleHashB (signedMsgHeader ++ strBytes (Event.Hash c ev1))) with
        | none => ((false, some Err.recoveringPublicKey) : Bool × Option Err)
        | some pk =>
          if hexEncode pk ≠ tagValue ["d", lnPubKey] then (false, some Err.publicKeyMismatch)
          else (true, none)) = (true, none)
      rw [hrc]
      show (if hexEncode pk ≠ tagValue ["d", lnPubKey] then
          ((false, some Err.publicKeyMismatch) : Bool × Option Err)
        else (true, none)) = (true, none)
      rw [if_neg (by rw [hhex]; exact fun hc => hc rfl)]
    · unfold vPassTime
      rw [hev2]
      show ne2.CreatedAt ≤ now + EventGracePeriodSeconds
      rw [hca2, hev1b, hev1]
      show now ≤ now + EventGracePeriodSeconds
      unfold EventGracePeriodSeconds
      omega
    · unfold vPassID
      rw [hev2]
      exact hidok
    · unfold vPassSize
      rw [hev2]
      show ne2.Content.utf8ByteSize ≤ MaxContentSize
      rw [hct2, hev1b, hev1]
      exact hsize
  · obtain ⟨hp, hn, ho⟩ := hcolon hz
    have hnet2 := hnet hz
    unfold publishPipeline
    rw [finalize_ok (freshPublishEvent pub now content) network lnPubKey kind opts rfl rfl]
    rw [if_neg hz]
    set tagD := goJoin ':' (itoa kind :: lnPubKey :: network :: opts) with htagD
    set ev1 : Event := { freshPublishEvent pub now content with
      kind := kind,
      finalized := true,
      NostrEvent := { (freshPublishEvent pub now content).NostrEvent with
        Kind := KindLightningInformation,
        Tags := (freshPublishEvent pub now content).NostrEvent.Tags ++
          [["d", tagD], ["k", itoa kind]] } } with hev1
    obtain ⟨ne2, hns, hpub2, hca2, hek2, htg2, hct2, hidok, hcs⟩ := hNostr ev1.NostrEvent
    have hreq : Event.RequiresLnSignature ev1 = false := by
      unfold Event.RequiresLnSignature
      rw [hev1]
      simp [hz]
    have hsign : SignEvent c lnSign nostrSign ev1 = .ok { ev1 with NostrEvent := ne2 } := by
      unfold SignEvent
      rw [if_neg (by rw [hev1]; simp)]
      rw [hreq]
      simp only [if_false, Bool.false_eq_true]
      rw [hns]
    show (match SignEvent c lnSign nostrSign ev1 with
          | Except.error e => Except.error e
          | Except.ok ev2 => Except.ok (Event.Verify c now ev2)) = Except.ok (true, none)
    rw [hsign]
    show Except.ok (Event.Verify c now { ev1 with NostrEvent := ne2 }) = .ok (true, none)
    congr 1
    set ev2 : Event := { ev1 with NostrEvent := ne2 } with hev2
    have htags : ev2.NostrEvent.Tags = [["d", tagD], ["k", itoa kind]] := by
      rw [hev2]
      show ne2.Tags = _
      rw [htg2, hev1]
      rfl
    have hsplit : goSplit tagD ':' = itoa kind :: lnPubKey :: network :: opts := by
      rw [htagD]
      apply goSplit_goJoin
      · simp
      · intro x hx
        rcases List.mem_cons.1 hx with rfl | hx2
        · exact itoa_no_colon kind
        rcases List.mem_cons.1 hx2 with rfl | hx3
        · exact hp
        rcases List.mem_cons.1 hx3 with rfl | hx4
        · exact hn
        · exact ho x hx4
    have hid2 : ev2.id = none := by
      rw [hev2, hev1]
      rfl
    have htd : tagsFind ev2.NostrEvent.Tags "d" = some ["d", tagD] := by
      rw [htags]
      rfl
    have htk : tagsFind ev2.NostrEvent.Tags "k" = some ["k", itoa kind] := by
      rw [htags]
      rfl
    have hatoi : atoi (tagValue ["k", itoa kind]) = some kind := by
      show atoi (itoa kind) = some kind
      exact atoi_itoa hk1 hk2
    have hlen : ¬ (goSplit (tagValue ["d", tagD]) ':').length < 3 := by
      show ¬ (goSplit tagD ':').length < 3
      rw [hsplit]
      simp
    have hgi : Event.GetIdentifier ev2 =
        .ok { TagD := tagValue ["d", tagD],
              Network := (goSplit (tagValue ["d", tagD]) ':').getD 2 "",
              PubKey := (goSplit (tagValue ["d", tagD]) ':').getD 1 "",
              Kind := kind, Opts := (goSplit (tagValue ["d", tagD]) ':').drop 3 } :=
      (((getIdentifier_eval ev2 hid2).1 _ htd _ htk).1 kind hatoi).2 hz |>.2 hlen
    have hidxfields : ((goSplit (tagValue ["d", tagD]) ':').getD 2 "" = network) ∧
        ((goSplit (tagValue ["d", tagD]) ':').getD 1 "" = lnPubKey) := by
      constructor
      · show (goSplit tagD ':').getD 2 "" = network
        rw [hsplit]
        rfl
      · show (goSplit tagD ':').getD 1 "" = lnPubKey
        rw [hsplit]
        rfl
    apply verify_pass c now ev2 _ _ _ _ hgi
    · unfold vPassNetwork
      intro _
      show IsValidNetwork ((goSplit (tagValue ["d", tagD]) ':').getD 2 "") = true
      rw [hidxfields.1]
      exact hnet2
    · unfold vPassKTag
      refine ⟨["k", itoa kind], htk, ?_⟩
      intro hc
      rcases hc with hc | hc
      · simp at hc
      · exact hc rfl
    · unfold vPassSig
      rw [hev2]
      exact hcs
    · unfold vPassLn
      intro hreq2
      exfalso
      unfold Event.RequiresLnSignature at hreq2
      rw [hev2, hev1] at hreq2
      simp [hz] at hreq2
    · unfold vPassTime
      rw [hev2]
      show ne2.CreatedAt ≤ now + EventGracePeriodSeconds
      rw [hca2, hev1]
      show now ≤ now + EventGracePeriodSeconds
      unfold EventGracePeriodSeconds
      omega
    · unfold vPassID
      rw [hev2]
      exact hidok
    · unfold vPassSize
      rw [hev2]
      show ne2.Content.utf8ByteSize ≤ MaxContentSize
      rw [hct2, hev1]
      exact hsize

/-- Witness: the full pipeline at the trivial collaborators, trust-anchor
    kind, empty content. -/
theorem publish_sign_verify_witness :
    publishPipeline cPub 0 lnSignPub nostrSignPub "p" "" "mainnet" "00"
      KindNodeAnnouncement [] = .ok (true, none) :=
  publish_sign_verify cPub 0 lnSignPub nostrSignPub "p" "" "mainnet" "00"
    KindNodeAnnouncement []
    (by decide) (by decide) (by decide)
    (fun h => absurd rfl h)
    (fun h => absurd rfl h)
    (fun ne => ⟨{ ne with ID := "x" }, rfl, rfl, rfl, rfl, rfl, rfl, rfl, rfl⟩)
    (fun msg => ⟨"s", [], [0], rfl, rfl, rfl, rfl⟩)

end Clip
